import Mathlib

/-!
# Campaign dispatch engine: embedding of `src/models/campaign.js`,
`src/services/vendorService.js` and `src/routes/vendorRoutes.js`

Modelling conventions.

* A Mongoose document method is a function of the in-memory document `this` (and of the
  collections it touches) returning the updated document and collections.
* Every effect whose outcome the code cannot control is an input: the result of each
  `save()`, of each query, of the vendor's random draw and of each `new Date()` is read from
  an environment record.  A persistence outcome is `none` when the call resolves and
  `some msg` when it rejects with `Error(msg)`.
* JavaScript numbers that count things are natural numbers; the division and the
  multiplication of `getProgress` are the double-precision operations, rounding included.
* Strings are Lean strings; `String.prototype.replace` is modelled on their character lists.
* The run is sequential (`await` after every effect), and no other writer touches the
  collections while it executes.
-/

namespace Dispatch

/-! ## JavaScript `String.prototype.replace(searchString, replaceValue)` -/

/-- Tests whether `pat` occurs in `s` at position 0. -/
def startsWith : List Char → List Char → Bool
  | [], _ => true
  | _ :: _, [] => false
  | p :: ps, c :: cs => p == c && startsWith ps cs

/-- Splits `s` at the first occurrence of `pat`: the text before the match and the text after
it, or `none` when `pat` does not occur in `s` (`indexOf` returning `-1`). -/
def splitFirst (pat : List Char) : List Char → Option (List Char × List Char)
  | [] => if pat.isEmpty then some ([], []) else none
  | c :: cs =>
    if startsWith pat (c :: cs) then some ([], (c :: cs).drop pat.length)
    else match splitFirst pat cs with
      | some (before, after) => some (c :: before, after)
      | none => none

/-- ECMAScript `GetSubstitution` for a string pattern (no capture groups): in the replacement
text `$$` yields `$`, `$&` the matched text, `$` followed by a backquote the text before the
match, `$` followed by a single quote the text after it; every other character, a lone `$`
included, is copied. -/
def getSubstitution (matched before after : List Char) : List Char → List Char
  | [] => []
  | [c] => [c]
  | c :: d :: rest =>
    if c == '$' then
      if d == '$' then '$' :: getSubstitution matched before after rest
      else if d == '&' then matched ++ getSubstitution matched before after rest
      else if d == Char.ofNat 96 then before ++ getSubstitution matched before after rest
      else if d == Char.ofNat 39 then after ++ getSubstitution matched before after rest
      else c :: getSubstitution matched before after (d :: rest)
    else c :: getSubstitution matched before after (d :: rest)

/-- The call `s.replace(pat, repl)` with a string `pat`: only the first occurrence of `pat`
is replaced, by the expansion of `repl`; `s` is returned as is when `pat` does not occur. -/
def jsReplace (s pat repl : List Char) : List Char :=
  match splitFirst pat s with
  | none => s
  | some (before, after) => before ++ getSubstitution pat before after repl ++ after

/-- The message of `processMessages`, lines 122-124:
`this.messageTemplate.replace('{{customerName}}', customer.name)
   .replace('{{message}}', this.messageContent)`. -/
def renderMessage (messageTemplate customerName messageContent : String) : String :=
  String.mk
    (jsReplace
      (jsReplace messageTemplate.data "{{customerName}}".data customerName.data)
      "{{message}}".data messageContent.data)

/-! ## Data model -/

/-- The `status` enum of the campaign schema. -/
inductive CampaignStatus where
  | draft
  | scheduled
  | running
  | completed
  | failed
  deriving DecidableEq, Repr

/-- The `stats` sub-document of the campaign schema. -/
structure Stats where
  audienceSize : Nat
  sent : Nat
  failed : Nat
  lastUpdated : Option Nat
  deriving DecidableEq, Repr

/-- The fields of a campaign document that the methods read or write. -/
structure Campaign where
  _id : Nat
  segment : Nat
  status : CampaignStatus
  messageTemplate : String
  messageContent : String
  stats : Stats
  deriving DecidableEq, Repr

/-- A populated customer of a segment. -/
structure Customer where
  _id : Nat
  name : String
  deriving DecidableEq, Repr

/-- The `deliveryReceipt` sub-document written by `processMessages`. -/
structure DeliveryReceipt where
  status : String
  timestamp : Nat
  messageId : Option String
  errorMessage : Option String
  deriving DecidableEq, Repr

/-- A communication log document, with the fields the code under `src/` reads or writes. -/
structure CommunicationLog where
  _id : Nat
  campaignId : Nat
  customerId : Nat
  message : String
  status : String
  deliveryReceipt : Option DeliveryReceipt
  deliveryTimestamp : Option Nat
  errorMessage : Option String
  deriving DecidableEq, Repr

/-! ## Double-precision arithmetic

`getProgress` divides and multiplies JavaScript numbers, which are IEEE 754 double-precision
values.  The counters are integers that a double holds exactly (below `2 ^ 53`); the
operations are modelled on such operands, rounding to nearest with ties to even.  The
exponent is not bounded: quotients and products of such operands stay far inside the range
of normal doubles. -/

/-- A finite non-negative double: the number `mantissa * 2 ^ exponent`. -/
structure Double where
  mantissa : ℕ
  exponent : ℤ
  deriving DecidableEq, Repr

/-- The rational number a double stands for. -/
def Double.toRat (x : Double) : ℚ := (x.mantissa : ℚ) * 2 ^ x.exponent

/-- The fraction `num / den * 2 ^ s` as a pair of naturals. -/
def scaleFraction (num den : ℕ) (s : ℤ) : ℕ × ℕ :=
  if 0 ≤ s then (num * 2 ^ s.toNat, den) else (num, den * 2 ^ (-s).toNat)

/-- The integer nearest to `a / b`, a tie going to the even neighbour. -/
def roundHalfEven (a b : ℕ) : ℕ :=
  if 2 * (a % b) < b then a / b
  else if b < 2 * (a % b) then a / b + 1
  else if (a / b) % 2 = 0 then a / b
  else a / b + 1

/-- Number of halvings that bring `n` below 2, at most `fuel` of them. -/
def log2Fuel : ℕ → ℕ → ℕ
  | 0, _ => 0
  | fuel + 1, n => if n < 2 then 0 else log2Fuel fuel (n / 2) + 1

/-- The position of the leading bit of `n`: the greatest `k` with `2 ^ k ≤ n`, for `n > 0`. -/
def floorLog2 (n : ℕ) : ℕ := log2Fuel n n

/-- The double nearest to `num / den` (for `den > 0`), ties to even: the quotient is scaled
into `[2 ^ 52, 2 ^ 53)`, rounded to an integer mantissa of 53 bits, and scaled back. -/
def roundToDouble (num den : ℕ) : Double :=
  if num = 0 then ⟨0, 0⟩
  else
    let s0 : ℤ := 52 + (floorLog2 den : ℤ) - (floorLog2 num : ℤ)
    let p := scaleFraction num den s0
    let s : ℤ := if p.1 < 2 ^ 52 * p.2 then s0 + 1 else s0
    let q := scaleFraction num den s
    ⟨roundHalfEven q.1 q.2, -s⟩

/-- The JavaScript quotient `a / b` of two integer-valued numbers, `b > 0`. -/
def divDouble (a b : ℕ) : Double := roundToDouble a b

/-- The JavaScript product `x * k` of a number and an integer-valued number: the exact product
`x.mantissa * k * 2 ^ x.exponent`, rounded. -/
def mulDouble (x : Double) (k : ℕ) : Double :=
  if 0 ≤ x.exponent then roundToDouble (x.mantissa * k * 2 ^ x.exponent.toNat) 1
  else roundToDouble (x.mantissa * k) (2 ^ (-x.exponent).toNat)

/-- The JavaScript expression `(completed / total) * 100` of line 82, as the rational number
its double-precision value stands for. -/
def percentage (completed total : ℕ) : ℚ := (mulDouble (divDouble completed total) 100).toRat

/-! ## `getProgress` -/

/-- The method `campaignSchema.methods.getProgress`: the returned number, paired with the
document after the call. -/
def getProgress (this : Campaign) : ℚ × Campaign :=
  let total := this.stats.audienceSize
  let completed := this.stats.sent + this.stats.failed
  (if total > 0 then percentage completed total else 0, this)

/-! ## Vendor gateway (`src/services/vendorService.js`) -/

/-- The object returned by a successful `sendMessage`. -/
structure VendorResult where
  success : Bool
  messageId : String
  timestamp : Nat
  status : String
  deriving DecidableEq, Repr

/-- The method `VendorService.sendMessage`.  `isSuccess` is the outcome of the draw
`Math.random() < 0.9`, `messageId` the identifier generated from the second draw and `now`
the clock reading; the inner `catch` logs and rethrows. -/
def sendMessage (isSuccess : Bool) (messageId : String) (now : Nat)
    (_message : String) (_customer : Customer) : Except String VendorResult :=
  if !isSuccess then .error "Simulated message delivery failure"
  else .ok { success := true, messageId := messageId, timestamp := now, status := "DELIVERED" }

/-! ## Dispatch engine (`campaignSchema.methods.processMessages`) -/

/-- Outcomes of the effects met while one recipient is processed. -/
structure RecipientEnv where
  /-- the `_id` generated for the new log document -/
  logId : Nat
  /-- outcome of `await log.save()` of the PENDING log, line 134 -/
  saveLogPending : Option String
  /-- the vendor's draw `Math.random() < 0.9` -/
  vendorSuccess : Bool
  /-- the vendor's generated message id -/
  vendorMessageId : String
  /-- the vendor's `new Date()` -/
  vendorTime : Nat
  /-- clock reading `new Date()` of the DELIVERED receipt, line 143 -/
  receiptTime : Nat
  /-- outcome of `await log.save()` of the SENT log, line 146 -/
  saveLogSent : Option String
  /-- clock reading `new Date()` of line 153 -/
  statsTime : Nat
  /-- outcome of `await this.save()`, line 154 -/
  saveCampaignSent : Option String
  /-- outcome of `await CommunicationLog.findOne(...)`, line 160 -/
  findPending : Option String
  /-- clock reading `new Date()` of the FAILED receipt, line 170 -/
  failReceiptTime : Nat
  /-- outcome of `await log.save()` of the FAILED log, line 173 -/
  saveLogFailed : Option String
  /-- clock reading `new Date()` of line 181 -/
  failStatsTime : Nat
  /-- outcome of `await this.save()`, line 182 -/
  saveCampaignFailed : Option String

/-- Outcomes of the effects of one run. -/
structure Env where
  /-- outcome of `await this.save()` after `status = running`, line 95 -/
  saveRunning : Option String
  /-- outcome of `await Segment.findById(this.segment).populate(customers)`, line 98: the query rejects,
  resolves to `null`, or resolves to a segment whose `customers` array is given -/
  findSegment : Except String (Option (List Customer))
  /-- outcome of `await this.save()` after the audience size is set, line 112 -/
  saveAudience : Option String
  /-- the effects met at the recipient in position `k` of the customer array -/
  recipient : Nat → RecipientEnv
  /-- outcome of `await this.save()` after `status = completed`, line 189 -/
  saveCompleted : Option String
  /-- outcome of `await this.save()` after `status = failed`, line 195 -/
  saveFailed : Option String

/-- The state a run works on: the in-memory document `this`, the successive states of the
campaign document written to the database by the run (oldest first), the communication log
collection (in insertion order), and the local counters `sent` and `failed`. -/
structure RunState where
  campaign : Campaign
  saved : List Campaign
  logs : List CommunicationLog
  sent : Nat
  failed : Nat
  deriving DecidableEq, Repr

/-- The query `CommunicationLog.findOne(filter)`: position and content of the first document
of the collection that matches, `none` for `null`.  Documents are examined in insertion order
(the natural order of the collection), so of several matches the oldest is returned. -/
def findOne (p : CommunicationLog → Bool) : List CommunicationLog → Option (Nat × CommunicationLog)
  | [] => none
  | l :: ls =>
    if p l then some (0, l)
    else match findOne p ls with
      | some (i, found) => some (i + 1, found)
      | none => none

/-- The filter `{ campaignId: this._id, customerId: customer._id, status: PENDING }` of
lines 160-164. -/
def pendingFilter (campaignId customerId : Nat) (l : CommunicationLog) : Bool :=
  l.campaignId == campaignId && l.customerId == customerId && l.status == "PENDING"

/-- The document `new CommunicationLog({ campaignId, customerId, message, status: PENDING })`
of lines 127-132, with the message rendered on lines 122-124. -/
def newLog (e : RecipientEnv) (this : Campaign) (customer : Customer) : CommunicationLog :=
  { _id := e.logId, campaignId := this._id, customerId := customer._id,
    message := renderMessage this.messageTemplate customer.name this.messageContent,
    status := "PENDING", deliveryReceipt := none, deliveryTimestamp := none,
    errorMessage := none }

/-- The assignments of lines 140-145 on a log document. -/
def markSent (e : RecipientEnv) (result : VendorResult) (log : CommunicationLog) :
    CommunicationLog :=
  { log with
    status := "SENT"
    deliveryReceipt := some
      { status := "DELIVERED", timestamp := e.receiptTime,
        messageId := some result.messageId, errorMessage := none } }

/-- The assignments of lines 167-172 on a log document. -/
def markFailed (e : RecipientEnv) (errorMessage : String) (log : CommunicationLog) :
    CommunicationLog :=
  { log with
    status := "FAILED"
    deliveryReceipt := some
      { status := "FAILED", timestamp := e.failReceiptTime,
        messageId := none, errorMessage := some errorMessage } }

/-- The assignments `this.stats.sent = sent; this.stats.failed = failed;
this.stats.lastUpdated = new Date()` of lines 151-153 and 179-181. -/
def setStats (this : Campaign) (sent failed now : Nat) : Campaign :=
  { this with
    stats := { this.stats with sent := sent, failed := failed, lastUpdated := some now } }

/-- The body of the inner `try`, lines 121-154.  Returns the state reached and, when a
statement threw, the message of the error (the state is then the one at the throw). -/
def trySend (e : RecipientEnv) (customer : Customer) (s : RunState) : RunState × Option String :=
  let log := newLog e s.campaign customer
  match e.saveLogPending with
  | some err => (s, some err)
  | none =>
    let handle := s.logs.length
    let s1 : RunState := { s with logs := s.logs ++ [log] }
    match sendMessage e.vendorSuccess e.vendorMessageId e.vendorTime log.message customer with
    | .error err => (s1, some err)
    | .ok result =>
      match e.saveLogSent with
      | some err => (s1, some err)
      | none =>
        let sent := s1.sent + 1
        let campaign := setStats s1.campaign sent s1.failed e.statsTime
        let s2 : RunState :=
          { s1 with
            logs := s1.logs.set handle (markSent e result log), sent := sent,
            campaign := campaign }
        match e.saveCampaignSent with
        | some err => (s2, some err)
        | none => ({ s2 with saved := s2.saved ++ [campaign] }, none)

/-- The body of the inner `catch`, lines 156-183, entered with the caught error message.
A returned message is an error thrown out of the handler. -/
def onSendError (e : RecipientEnv) (customer : Customer) (s : RunState) (errorMessage : String) :
    RunState × Option String :=
  match e.findPending with
  | some err => (s, some err)
  | none =>
    let updated : Except String (List CommunicationLog) :=
      match findOne (pendingFilter s.campaign._id customer._id) s.logs with
      | none => .ok s.logs
      | some (i, log) =>
        match e.saveLogFailed with
        | some err => .error err
        | none => .ok (s.logs.set i (markFailed e errorMessage log))
    match updated with
    | .error err => (s, some err)
    | .ok logs =>
      let failed := s.failed + 1
      let campaign := setStats s.campaign s.sent failed e.failStatsTime
      let s1 : RunState := { s with logs := logs, failed := failed, campaign := campaign }
      match e.saveCampaignFailed with
      | some err => (s1, some err)
      | none => ({ s1 with saved := s1.saved ++ [campaign] }, none)

/-- One iteration of the inner `for`, lines 119-184. -/
def processRecipient (e : RecipientEnv) (customer : Customer) (s : RunState) :
    RunState × Option String :=
  match trySend e customer s with
  | (s1, none) => (s1, none)
  | (s1, some err) => onSendError e customer s1 err

/-- The inner loop `for (const customer of batch)`; `k` is the position of the first
customer of `batch` in the whole customer array.  An error leaves the loop. -/
def processBatch (env : Nat → RecipientEnv) : Nat → List Customer → RunState → RunState × Option String
  | _, [], s => (s, none)
  | k, customer :: rest, s =>
    match processRecipient (env k) customer s with
    | (s1, some err) => (s1, some err)
    | (s1, none) => processBatch env (k + 1) rest s1

/-- The constant `batchSize` of line 106. -/
def batchSize : Nat := 50

/-- The outer loop `for (let i = 0; i < totalCustomers; i += batchSize)` entered at index `i`,
with `customers.slice(i, i + batchSize)` as the batch.  `fuel` bounds the number of
iterations. -/
def processBatches (env : Nat → RecipientEnv) (customers : List Customer) :
    Nat → Nat → RunState → RunState × Option String
  | 0, _, s => (s, none)
  | fuel + 1, i, s =>
    if i < customers.length then
      match processBatch env i ((customers.drop i).take batchSize) s with
      | (s1, some err) => (s1, some err)
      | (s1, none) => processBatches env customers fuel (i + batchSize) s1
    else (s, none)

deriving instance DecidableEq for Except

/-- What a run leaves behind and what it returns: `result` is `ok` when the promise resolves
and `error msg` when it rejects with `Error(msg)`. -/
structure Outcome where
  campaign : Campaign
  saved : List Campaign
  logs : List CommunicationLog
  result : Except String Unit
  deriving DecidableEq, Repr

/-- The outer `catch`, lines 191-197. -/
def onCampaignError (env : Env) (s : RunState) (error : String) : Outcome :=
  let campaign : Campaign := { s.campaign with status := .failed }
  match env.saveFailed with
  | some err => { campaign := campaign, saved := s.saved, logs := s.logs, result := .error err }
  | none =>
    { campaign := campaign, saved := s.saved ++ [campaign], logs := s.logs,
      result := .error error }

/-- The method `campaignSchema.methods.processMessages`, run on the document `this` with
the log collection `logs`. -/
def processMessages (env : Env) (this : Campaign) (logs : List CommunicationLog) : Outcome :=
  let s0 : RunState :=
    { campaign := { this with status := .running }, saved := [], logs := logs,
      sent := 0, failed := 0 }
  match env.saveRunning with
  | some err => onCampaignError env s0 err
  | none =>
    let s1 : RunState := { s0 with saved := s0.saved ++ [s0.campaign] }
    match env.findSegment with
    | .error err => onCampaignError env s1 err
    | .ok none => onCampaignError env s1 "Segment not found"
    | .ok (some customers) =>
      let totalCustomers := customers.length
      let campaign2 : Campaign :=
        { s1.campaign with stats := { s1.campaign.stats with audienceSize := totalCustomers } }
      let s2 : RunState := { s1 with campaign := campaign2 }
      match env.saveAudience with
      | some err => onCampaignError env s2 err
      | none =>
        let s3 : RunState := { s2 with saved := s2.saved ++ [campaign2] }
        match processBatches env.recipient customers totalCustomers 0 s3 with
        | (s4, some err) => onCampaignError env s4 err
        | (s4, none) =>
          let campaign5 : Campaign := { s4.campaign with status := .completed }
          let s5 : RunState := { s4 with campaign := campaign5 }
          match env.saveCompleted with
          | some err => onCampaignError env s5 err
          | none =>
            { campaign := campaign5, saved := s5.saved ++ [campaign5], logs := s5.logs,
              result := .ok () }

/-! ## Delivery receipt handler (`router.post('/delivery-receipt')`) -/

/-- The fields read from `req.body`.  For `logId` and `status`, `none` stands for an absent,
`null` or otherwise falsy value (the empty string is treated apart for `status`); for
`errorMessage`, `none` is `undefined`, `some none` is `null`. -/
structure ReceiptRequest where
  logId : Option Nat
  status : Option String
  errorMessage : Option (Option String)
  deriving DecidableEq, Repr

/-- The collections the vendor routes work on. -/
structure Database where
  logs : List CommunicationLog
  campaigns : List Campaign
  deriving DecidableEq, Repr

/-- The JSON body of a response. -/
inductive ResponseBody where
  | error (error : String)
  | processed (success : Bool) (message : String) (log : CommunicationLog)
  deriving DecidableEq, Repr

/-- The HTTP response: status code and JSON body. -/
structure Response where
  status : Nat
  body : ResponseBody
  deriving DecidableEq, Repr

/-- Outcomes of the effects of one delivery-receipt request. -/
structure ReceiptEnv where
  /-- clock reading `new Date()` of line 88 -/
  now : Nat
  /-- outcome of `await CommunicationLog.findByIdAndUpdate(...)`, line 84: `some msg` when the query
  rejects (identifier that cannot be cast, store unavailable) -/
  updateError : Option String

/-- JavaScript truthiness of a request field holding a string. -/
def truthy : Option String → Bool
  | none => false
  | some s => s != ""

/-- The query `CommunicationLog.findByIdAndUpdate(logId, update, { new: true })` on the
collection: the first document with that `_id` is replaced by its updated version, which is
returned; `none` for `null`, the collection being then unchanged. -/
def findByIdAndUpdate (logId : Nat) (update : CommunicationLog → CommunicationLog) :
    List CommunicationLog → Option CommunicationLog × List CommunicationLog
  | [] => (none, [])
  | l :: ls =>
    if l._id = logId then (some (update l), update l :: ls)
    else
      let r := findByIdAndUpdate logId update ls
      (r.1, l :: r.2)

/-- The handler of `POST /delivery-receipt`, lines 74-107. -/
def deliveryReceipt (env : ReceiptEnv) (req : ReceiptRequest) (db : Database) :
    Response × Database :=
  match req.logId, truthy req.status, req.status with
  | some logId, true, some status =>
    match env.updateError with
    | some _ => ({ status := 500, body := .error "Error processing delivery receipt" }, db)
    | none =>
      let update : CommunicationLog → CommunicationLog := fun l =>
        { l with
          status := status
          deliveryTimestamp := some env.now
          errorMessage := match req.errorMessage with
            | some v => v
            | none => l.errorMessage }
      match findByIdAndUpdate logId update db.logs with
      | (none, logs) =>
        ({ status := 404, body := .error "Communication log not found" },
          { db with logs := logs })
      | (some log, logs) =>
        ({ status := 200, body := .processed true "Delivery receipt processed" log },
          { db with logs := logs })
  | _, _, _ => ({ status := 400, body := .error "Missing required fields" }, db)

/-! ## Concrete campaigns, audiences and environments -/

/-- Effects of a recipient for which every persistence call resolves; `k` is the position of
the recipient and `vendorOk` the vendor's draw. -/
def scriptedRecipient (k : Nat) (vendorOk : Bool) : RecipientEnv :=
  { logId := 100 + k, saveLogPending := none, vendorSuccess := vendorOk,
    vendorMessageId := "m", vendorTime := 0, receiptTime := 0, saveLogSent := none,
    statsTime := 0, saveCampaignSent := none, findPending := none, failReceiptTime := 0,
    saveLogFailed := none, failStatsTime := 0, saveCampaignFailed := none }

/-- A run in which every persistence call resolves, the segment resolves to `customers`, and
the vendor's draw at position `k` is `vendorOk k`. -/
def scriptedEnv (customers : List Customer) (vendorOk : Nat → Bool) : Env :=
  { saveRunning := none, findSegment := .ok (some customers), saveAudience := none,
    recipient := fun k => scriptedRecipient k (vendorOk k),
    saveCompleted := none, saveFailed := none }

/-- A campaign as the schema defaults create it: status `draft`, all counters 0. -/
def draftCampaign : Campaign :=
  { _id := 1, segment := 1, status := .draft,
    messageTemplate := "Hi {{customerName}}, {{message}}", messageContent := "hello",
    stats := { audienceSize := 0, sent := 0, failed := 0, lastUpdated := none } }

/-- A campaign after an earlier completed run over `audienceSize` customers. -/
def finishedCampaign (audienceSize sent failed : Nat) : Campaign :=
  { draftCampaign with
    status := .completed
    stats := { audienceSize := audienceSize, sent := sent, failed := failed,
               lastUpdated := some 0 } }

/-- Two customers. -/
def ann : Customer := { _id := 10, name := "Ann" }

/-- The second customer. -/
def bob : Customer := { _id := 11, name := "Bob" }

/-- A log of campaign 1 for `ann` left PENDING by an earlier, interrupted attempt. -/
def stuckLog : CommunicationLog :=
  { _id := 7, campaignId := 1, customerId := 10, message := "Hi Ann, hello",
    status := "PENDING", deliveryReceipt := none, deliveryTimestamp := none,
    errorMessage := none }

/-- The triple `(audienceSize, sent, failed)` of a campaign. -/
def counters (c : Campaign) : Nat × Nat × Nat :=
  (c.stats.audienceSize, c.stats.sent, c.stats.failed)

/-- A run over `customers` in which the vendor always succeeds and every persistence call
resolves except the first `log.save()` of each recipient, which rejects. -/
def logStoreDownEnv (customers : List Customer) : Env :=
  { scriptedEnv customers (fun _ => true) with
    recipient := fun k => { scriptedRecipient k true with saveLogPending := some "store down" } }

/-- A run whose segment lookup resolves to `null` and whose save of the `failed` status
rejects. -/
def segmentMissingSaveDownEnv : Env :=
  { scriptedEnv [] (fun _ => true) with
    findSegment := .ok none, saveFailed := some "store down" }

/-- A run whose segment lookup resolves to `null`, every save resolving. -/
def segmentMissingEnv : Env :=
  { scriptedEnv [] (fun _ => true) with findSegment := .ok none }

/-- Every persistence call met while this recipient is processed resolves. -/
def RecipientEnv.persistenceOk (e : RecipientEnv) : Prop :=
  e.saveLogPending = none ∧ e.saveLogSent = none ∧ e.saveCampaignSent = none ∧
  e.findPending = none ∧ e.saveLogFailed = none ∧ e.saveCampaignFailed = none

/-- Persistence succeeds throughout a run: every save of the campaign and every call met at
any recipient resolves. -/
def Env.persistenceOk (env : Env) : Prop :=
  env.saveRunning = none ∧ env.saveAudience = none ∧ env.saveCompleted = none ∧
  ∀ k, (env.recipient k).persistenceOk

/-- Number of positions among `k, k + 1, ..., k + n - 1` at which the vendor succeeds. -/
def vendorSuccesses (env : Nat → RecipientEnv) : Nat → Nat → Nat
  | _, 0 => 0
  | k, n + 1 => (if (env k).vendorSuccess then 1 else 0) + vendorSuccesses env (k + 1) n

/-- Number of recipients a campaign document records as processed: `sent + failed`. -/
def processed (c : Campaign) : Nat := c.stats.sent + c.stats.failed

/-- The state in which `processMessages` enters its loop when the segment resolved to
`audienceSize` customers and both saves before the loop succeeded: status `running` and the
new audience size in memory, two persisted states, counters at 0. -/
def loopEntry (this : Campaign) (logs : List CommunicationLog) (audienceSize : Nat) : RunState :=
  { campaign :=
      { this with
        status := .running
        stats := { this.stats with audienceSize := audienceSize } },
    saved :=
      [{ this with status := .running },
       { this with
         status := .running
         stats := { this.stats with audienceSize := audienceSize } }],
    logs := logs, sent := 0, failed := 0 }

/-- A database holding one log (`_id` 7) and one campaign. -/
def smallDatabase : Database :=
  { logs := [stuckLog], campaigns := [draftCampaign] }

/-- A delivery receipt for log 3, which `smallDatabase` does not hold. -/
def unknownReceipt : ReceiptRequest :=
  { logId := some 3, status := some "SENT", errorMessage := none }

/-- The log a recipient is expected to end with when nothing but the vendor can fail: the
fresh log marked SENT with the vendor's message id if the vendor succeeded, and marked FAILED
with the vendor's error message otherwise. -/
def expectedLog (e : RecipientEnv) (this : Campaign) (customer : Customer) : CommunicationLog :=
  if e.vendorSuccess then
    markSent e
      { success := true, messageId := e.vendorMessageId, timestamp := e.vendorTime,
        status := "DELIVERED" }
      (newLog e this customer)
  else markFailed e "Simulated message delivery failure" (newLog e this customer)

/-- The expected logs of the customers `cs`, the first of which has position `k`. -/
def expectedLogs (env : Nat → RecipientEnv) (this : Campaign) : Nat → List Customer → List CommunicationLog
  | _, [] => []
  | k, c :: cs => expectedLog (env k) this c :: expectedLogs env this (k + 1) cs

/-- A run over `[ann]` in which the vendor succeeds, the save of the SENT log and the save of
the FAILED log both reject, and the log gets identifier 7. -/
def outageEnv : Env :=
  { scriptedEnv [ann] (fun _ => true) with
    recipient := fun k =>
      { scriptedRecipient k true with
        logId := 7, saveLogSent := some "store down", saveLogFailed := some "store down" } }

/-- A run over `[ann]` in which the vendor succeeds and every persistence call resolves except
the save of the campaign after the send (line 154), which rejects. -/
def statsSaveDownEnv : Env :=
  { scriptedEnv [ann] (fun _ => true) with
    recipient := fun k => { scriptedRecipient k true with saveCampaignSent := some "store down" } }

/-! ## Queue-and-deliver route (`router.post('/send')`) and its delayed receipt -/

/-- The fields read from the body of a `POST /send` request; `none` stands for an absent or
falsy value. -/
structure SendRequest where
  campaignId : Option Nat
  customerId : Option Nat
  message : Option String
  deriving DecidableEq, Repr

/-- Outcomes of the effects of one `POST /send` request. -/
structure SendEnv where
  /-- outcome of the draw `Math.random() < 0.9`, line 18 -/
  isSuccess : Bool
  /-- identifier generated for the new log document -/
  logId : Nat
  /-- clock reading `new Date()` of line 30 -/
  now : Nat
  /-- outcome of `await log.save()`, line 35 -/
  saveLog : Option String

/-- The variables the `setTimeout` callback of lines 38-60 closes over. -/
structure PendingReceipt where
  campaignId : Nat
  logId : Nat
  status : String
  errorMessage : Option String
  deriving DecidableEq, Repr

/-- The JSON body of a `POST /send` response. -/
inductive SendBody where
  | error (error : String)
  | queued (success : Bool) (message : String) (logId : Nat)
  deriving DecidableEq, Repr

/-- The HTTP response of `POST /send`. -/
structure SendResponse where
  status : Nat
  body : SendBody
  deriving DecidableEq, Repr

/-- The handler of `POST /send`, lines 8-71: the response, the database after the request,
and the receipt it schedules with `setTimeout`, if any. -/
def send (env : SendEnv) (req : SendRequest) (db : Database) :
    SendResponse × Database × Option PendingReceipt :=
  match req.campaignId, req.customerId, truthy req.message, req.message with
  | some campaignId, some customerId, true, some message =>
    let status := if env.isSuccess then "SENT" else "FAILED"
    let errorMessage := if env.isSuccess then none else some "Simulated delivery failure"
    let log : CommunicationLog :=
      { _id := env.logId, campaignId := campaignId, customerId := customerId,
        message := message, status := status,
        deliveryReceipt := some
          { status := status, timestamp := env.now, messageId := none,
            errorMessage := errorMessage },
        deliveryTimestamp := none, errorMessage := none }
    match env.saveLog with
    | some _ => ({ status := 500, body := .error "Error sending message" }, db, none)
    | none =>
      ({ status := 200, body := .queued true "Message queued for delivery" log._id },
        { db with logs := db.logs ++ [log] },
        some { campaignId := campaignId, logId := log._id, status := status,
               errorMessage := errorMessage })
  | _, _, _, _ => ({ status := 400, body := .error "Missing required fields" }, db, none)

/-- Outcomes of the effects of one run of the delayed callback. -/
structure CallbackEnv where
  /-- outcome of `await Campaign.findById(campaignId)`, line 41 -/
  findCampaign : Option String
  /-- outcome of `await campaign.save()`, line 48 -/
  saveCampaign : Option String
  /-- outcome of the transport of `axios.post`, line 52: `some msg` when the request does not
  reach the server -/
  postError : Option String
  /-- effects of the delivery-receipt request the callback posts -/
  receipt : ReceiptEnv

/-- The query `Campaign.findById(id)`: position and content of the first campaign with that
`_id`, `none` for `null`. -/
def findById (id : Nat) : List Campaign → Option (Nat × Campaign)
  | [] => none
  | c :: cs =>
    if c._id = id then some (0, c)
    else match findById id cs with
      | some (i, found) => some (i + 1, found)
      | none => none

/-- The assignments of lines 43-47 on a campaign document: `stats.sent += 1` when the status
is SENT, `stats.failed += 1` otherwise. -/
def countReceipt (status : String) (campaign : Campaign) : Campaign :=
  if status = "SENT" then
    { campaign with stats := { campaign.stats with sent := campaign.stats.sent + 1 } }
  else
    { campaign with stats := { campaign.stats with failed := campaign.stats.failed + 1 } }

/-- The `setTimeout` callback of lines 38-60: the database it leaves and, when its `catch` was
entered, the message of the error it logs. -/
def receiptCallback (env : CallbackEnv) (p : PendingReceipt) (db : Database) :
    Database × Option String :=
  match env.findCampaign with
  | some err => (db, some err)
  | none =>
    let counted : Except String Database :=
      match findById p.campaignId db.campaigns with
      | none => .ok db
      | some (i, campaign) =>
        match env.saveCampaign with
        | some err => .error err
        | none => .ok { db with campaigns := db.campaigns.set i (countReceipt p.status campaign) }
    match counted with
    | .error err => (db, some err)
    | .ok db1 =>
      match env.postError with
      | some err => (db1, some err)
      | none =>
        let r := deliveryReceipt env.receipt
          { logId := some p.logId, status := some p.status,
            errorMessage := some p.errorMessage } db1
        if r.1.status < 400 then (r.2, none)
        else (r.2, some ("Request failed with status code " ++ toString r.1.status))

/-- A delivery receipt for log 7, the log of `smallDatabase`, with status SENT. -/
def knownReceipt : ReceiptRequest :=
  { logId := some 7, status := some "SENT", errorMessage := none }

/-- A delivery receipt for log 7 with status FAILED and an error message. -/
def failedReceipt : ReceiptRequest :=
  { logId := some 7, status := some "FAILED", errorMessage := some (some "unreachable") }

/-- Effects of a callback in which every call resolves. -/
def okCallbackEnv : CallbackEnv :=
  { findCampaign := none, saveCampaign := none, postError := none,
    receipt := { now := 5, updateError := none } }

/-- The customers of `cs` (the first of which has position `k`) whose PENDING log is stored:
those for whom the `log.save()` of line 134 resolves. -/
def loggedCustomers (env : Nat → RecipientEnv) : Nat → List Customer → List Customer
  | _, [] => []
  | k, c :: cs =>
    if (env k).saveLogPending = none then c :: loggedCustomers env (k + 1) cs
    else loggedCustomers env (k + 1) cs

/-- A run over `customers` in which the vendor always succeeds and every persistence call
resolves except the first `log.save()` of the first recipient, which rejects. -/
def firstLogSaveDownEnv (customers : List Customer) : Env :=
  { scriptedEnv customers (fun _ => true) with
    recipient := fun k =>
      { scriptedRecipient k true with
        saveLogPending := if k = 0 then some "store down" else none } }

/-! ## Double-precision rounding -/

/-- With fuel for the number, `log2Fuel` is the binary logarithm. -/
theorem log2Fuel_eq (fuel n : ℕ) (h : n ≤ fuel) : log2Fuel fuel n = Nat.log2 n := by
  induction fuel generalizing n with
  | zero =>
    have : n = 0 := by omega
    subst this
    simp [log2Fuel, Nat.log2_zero]
  | succ fuel ih =>
    rw [log2Fuel, Nat.log2]
    by_cases h2 : n < 2
    · simp [h2, Nat.not_le.mpr h2]
    · have h3 : n ≥ 2 := by omega
      simp only [h2, if_false, h3, if_true]
      rw [ih (n / 2) (by omega)]

/-- The position of the leading bit is the binary logarithm. -/
theorem floorLog2_eq (n : ℕ) : floorLog2 n = Nat.log2 n := log2Fuel_eq n n (Nat.le_refl n)

/-- Scaling keeps the denominator positive. -/
theorem scaleFraction_pos (num den : ℕ) (s : ℤ) (hden : 0 < den) :
    0 < (scaleFraction num den s).2 := by
  unfold scaleFraction
  split
  · exact hden
  · exact Nat.mul_pos hden (Nat.pow_pos (by norm_num))

/-- The scaled fraction is the fraction times the power of two. -/
theorem scaleFraction_value (num den : ℕ) (s : ℤ) (hden : 0 < den) :
    ((scaleFraction num den s).1 : ℚ) / ((scaleFraction num den s).2 : ℚ)
      = (num : ℚ) / (den : ℚ) * 2 ^ s := by
  have hd : (den : ℚ) ≠ 0 := by exact_mod_cast hden.ne'
  unfold scaleFraction
  split
  · rename_i h
    have hs : s = (s.toNat : ℤ) := (Int.toNat_of_nonneg h).symm
    simp only [Nat.cast_mul, Nat.cast_pow, Nat.cast_ofNat]
    conv_rhs => rw [hs, zpow_natCast]
    ring
  · rename_i h
    have hs : s = -((-s).toNat : ℤ) := by
      have := Int.toNat_of_nonneg (show 0 ≤ -s by omega)
      omega
    simp only [Nat.cast_mul, Nat.cast_pow, Nat.cast_ofNat]
    conv_rhs => rw [hs, zpow_neg, zpow_natCast]
    field_simp

/-- Rounding to the nearest integer moves a fraction by at most one half. -/
theorem roundHalfEven_error (a b : ℕ) (hb : 0 < b) :
    |((roundHalfEven a b : ℕ) : ℚ) - (a : ℚ) / (b : ℚ)| ≤ 1 / 2 := by
  have hbq : (0 : ℚ) < b := by exact_mod_cast hb
  have hdiv : (a : ℚ) = (b : ℚ) * ((a / b : ℕ) : ℚ) + ((a % b : ℕ) : ℚ) := by
    exact_mod_cast (Nat.div_add_mod a b).symm
  obtain ⟨f, hf⟩ : ∃ f : ℚ, f = ((a % b : ℕ) : ℚ) / b := ⟨_, rfl⟩
  have hfb : f * b = ((a % b : ℕ) : ℚ) := by rw [hf]; field_simp
  have hq : (a : ℚ) / b = ((a / b : ℕ) : ℚ) + f := by
    rw [hf, hdiv]; field_simp; ring
  rw [abs_le, hq]
  unfold roundHalfEven
  split
  · rename_i h
    have h2 : (2 : ℚ) * ((a % b : ℕ) : ℚ) < b := by exact_mod_cast h
    have hf0 : 0 ≤ f := by rw [hf]; positivity
    have : f < 1 / 2 := by
      by_contra hc
      push_neg at hc
      nlinarith
    constructor <;> linarith
  · rename_i h
    split
    · rename_i h2
      have h3 : (b : ℚ) < 2 * ((a % b : ℕ) : ℚ) := by exact_mod_cast h2
      have hmod : ((a % b : ℕ) : ℚ) < b := by exact_mod_cast Nat.mod_lt a hb
      have h1 : 1 / 2 < f := by
        by_contra hc
        push_neg at hc
        nlinarith
      have h4 : f < 1 := by
        by_contra hc
        push_neg at hc
        nlinarith
      push_cast
      constructor <;> linarith
    · rename_i h2
      have heq : 2 * (a % b) = b := by omega
      have h3 : (2 : ℚ) * ((a % b : ℕ) : ℚ) = b := by exact_mod_cast heq
      have : f = 1 / 2 := by
        have : f * b = 1 / 2 * b := by rw [hfb]; linarith
        exact mul_right_cancel₀ hbq.ne' this
      split
      · constructor <;> linarith
      · push_cast; constructor <;> linarith

/-- The shift `roundToDouble` selects brings the quotient to at least `2 ^ 52`, and the result
is the rounded scaled quotient, scaled back. -/
theorem roundToDouble_shift (num den : ℕ) (hnum : num ≠ 0) (hden : 0 < den) :
    ∃ s : ℤ, (2 : ℚ) ^ (52 : ℕ) ≤ (num : ℚ) / (den : ℚ) * 2 ^ s ∧
      (roundToDouble num den).toRat
        = ((roundHalfEven (scaleFraction num den s).1 (scaleFraction num den s).2 : ℕ) : ℚ)
            * 2 ^ (-s) := by
  have hnq : (0 : ℚ) < num := by exact_mod_cast Nat.pos_of_ne_zero hnum
  have hdq : (0 : ℚ) < den := by exact_mod_cast hden
  have h1 : ((2 : ℚ) ^ (floorLog2 num : ℤ)) ≤ num := by
    rw [zpow_natCast, floorLog2_eq]; exact_mod_cast Nat.log2_self_le hnum
  have h2 : (den : ℚ) ≤ (2 : ℚ) ^ ((floorLog2 den : ℤ) + 1) := by
    rw [show ((floorLog2 den : ℤ) + 1) = ((floorLog2 den + 1 : ℕ) : ℤ) by push_cast; ring,
      zpow_natCast, floorLog2_eq]
    exact_mod_cast (Nat.lt_log2_self (n := den)).le
  have h2pos : ∀ k : ℤ, (0 : ℚ) < 2 ^ k := fun k => zpow_pos (by norm_num) k
  -- the quotient scaled by the first shift is at least 2 ^ 51
  have h51 : (2 : ℚ) ^ (51 : ℕ) ≤
      (num : ℚ) / (den : ℚ) * 2 ^ (52 + (floorLog2 den : ℤ) - (floorLog2 num : ℤ)) := by
    have e1 : (2 : ℚ) ^ (52 + (floorLog2 den : ℤ) - (floorLog2 num : ℤ))
        = 2 ^ (51 : ℕ) * 2 ^ ((floorLog2 den : ℤ) + 1) / 2 ^ (floorLog2 num : ℤ) := by
      rw [show (52 + (floorLog2 den : ℤ) - (floorLog2 num : ℤ))
          = (51 : ℤ) + ((floorLog2 den : ℤ) + 1) - (floorLog2 num : ℤ) by ring,
        zpow_sub₀ (by norm_num), zpow_add₀ (by norm_num)]
      norm_num
    rw [e1]
    have hA := h2pos (floorLog2 num : ℤ)
    have hB := h2pos ((floorLog2 den : ℤ) + 1)
    rw [div_mul_div_comm, le_div_iff₀ (mul_pos hdq hA)]
    have : (2 : ℚ) ^ (51 : ℕ) * (den * 2 ^ (floorLog2 num : ℤ))
        ≤ 2 ^ (51 : ℕ) * (2 ^ ((floorLog2 den : ℤ) + 1) * num) := by
      apply mul_le_mul_of_nonneg_left _ (by positivity)
      exact mul_le_mul h2 h1 hA.le hB.le
    linarith
  simp only [roundToDouble, hnum, if_false, Double.toRat]
  split
  · rename_i hlt
    refine ⟨52 + (floorLog2 den : ℤ) - (floorLog2 num : ℤ) + 1, ?_, rfl⟩
    rw [zpow_add₀ (by norm_num), zpow_one]
    norm_num at h51 ⊢
    linarith
  · rename_i hnlt
    refine ⟨52 + (floorLog2 den : ℤ) - (floorLog2 num : ℤ), ?_, rfl⟩
    rw [← scaleFraction_value num den _ hden]
    have hp := scaleFraction_pos num den (52 + (floorLog2 den : ℤ) - (floorLog2 num : ℤ)) hden
    have hpq : (0 : ℚ) < ((scaleFraction num den
        (52 + (floorLog2 den : ℤ) - (floorLog2 num : ℤ))).2 : ℚ) := by exact_mod_cast hp
    rw [le_div_iff₀ hpq]
    have := Nat.le_of_not_lt hnlt
    exact_mod_cast this

/-- Rounding to a double moves a quotient by at most the fraction `2 ^ -53` of it. -/
theorem roundToDouble_error (num den : ℕ) (hden : 0 < den) :
    |(roundToDouble num den).toRat - (num : ℚ) / (den : ℚ)|
      ≤ (num : ℚ) / (den : ℚ) / 2 ^ (53 : ℕ) := by
  by_cases hnum : num = 0
  · simp [roundToDouble, hnum, Double.toRat]
  · obtain ⟨s, hs, hval⟩ := roundToDouble_shift num den hnum hden
    have herr := roundHalfEven_error (scaleFraction num den s).1 (scaleFraction num den s).2
      (scaleFraction_pos num den s hden)
    rw [scaleFraction_value num den s hden] at herr
    rw [hval]
    have hpos : (0 : ℚ) < 2 ^ s := zpow_pos (by norm_num) s
    have hinv : (2 : ℚ) ^ (-s) = 1 / 2 ^ s := by rw [zpow_neg, one_div]
    generalize ((roundHalfEven (scaleFraction num den s).1 (scaleFraction num den s).2 : ℕ) : ℚ)
      = r at herr ⊢
    generalize (num : ℚ) / (den : ℚ) = q at hs herr ⊢
    rw [hinv]
    have hq : r * (1 / 2 ^ s) - q = (r - q * 2 ^ s) / 2 ^ s := by field_simp; ring
    rw [hq, abs_div, abs_of_pos hpos, div_le_iff₀ hpos]
    calc |r - q * 2 ^ s| ≤ 1 / 2 := herr
      _ ≤ q / 2 ^ (53 : ℕ) * 2 ^ s := by
        have : (2 : ℚ) ^ (53 : ℕ) = 2 * 2 ^ (52 : ℕ) := by norm_num
        rw [this, div_mul_eq_mul_div, le_div_iff₀ (by positivity)]
        linarith

/-- The double product differs from the exact product by at most the fraction `2 ^ -53` of it. -/
theorem mulDouble_error (x : Double) (k : ℕ) :
    |(mulDouble x k).toRat - x.toRat * k| ≤ x.toRat * k / 2 ^ (53 : ℕ) := by
  unfold mulDouble
  split
  · rename_i h
    have hval : x.toRat * k = ((x.mantissa * k * 2 ^ x.exponent.toNat : ℕ) : ℚ) / ((1 : ℕ) : ℚ) := by
      have hs : x.exponent = (x.exponent.toNat : ℤ) := (Int.toNat_of_nonneg h).symm
      simp only [Double.toRat, Nat.cast_mul, Nat.cast_pow, Nat.cast_ofNat, Nat.cast_one, div_one]
      conv_lhs => rw [hs, zpow_natCast]
      ring
    rw [hval]
    exact roundToDouble_error _ 1 (by norm_num)
  · rename_i h
    have hval : x.toRat * k
        = ((x.mantissa * k : ℕ) : ℚ) / ((2 ^ (-x.exponent).toNat : ℕ) : ℚ) := by
      have hs : x.exponent = -((-x.exponent).toNat : ℤ) := by
        have := Int.toNat_of_nonneg (show 0 ≤ -x.exponent by omega)
        omega
      simp only [Double.toRat, Nat.cast_mul, Nat.cast_pow, Nat.cast_ofNat]
      conv_lhs => rw [hs, zpow_neg, zpow_natCast]
      field_simp
    rw [hval]
    exact roundToDouble_error _ _ (Nat.pow_pos (by norm_num))

/-- The doubles of the model are non-negative. -/
theorem Double.toRat_nonneg (x : Double) : 0 ≤ x.toRat := by
  unfold Double.toRat
  have : (0 : ℚ) < 2 ^ x.exponent := zpow_pos (by norm_num) _
  positivity

/-- Two roundings: `(c / t) * 100` in doubles lies between `100 * c / t * (1 - 2 ^ -53) ^ 2` and
`100 * c / t * (1 + 2 ^ -53) ^ 2`. -/
theorem percentage_bounds (c t : ℕ) (ht : 0 < t) :
    100 * ((c : ℚ) / t) * (1 - 1 / 2 ^ (53 : ℕ)) ^ 2 ≤ percentage c t ∧
    percentage c t ≤ 100 * ((c : ℚ) / t) * (1 + 1 / 2 ^ (53 : ℕ)) ^ 2 := by
  unfold percentage
  have h1 := roundToDouble_error c t ht
  have h2 := mulDouble_error (divDouble c t) 100
  have hx := Double.toRat_nonneg (divDouble c t)
  unfold divDouble at h2 hx ⊢
  have hq : (0 : ℚ) ≤ (c : ℚ) / t := by positivity
  generalize (roundToDouble c t).toRat = x at h1 h2 hx ⊢
  generalize (mulDouble (roundToDouble c t) 100).toRat = g at h2 ⊢
  generalize (c : ℚ) / t = q at h1 hq ⊢
  rw [abs_le] at h1 h2
  obtain ⟨h1a, h1b⟩ := h1
  obtain ⟨h2a, h2b⟩ := h2
  push_cast at h2a h2b
  constructor
  · have : 100 * q * (1 - 1 / 2 ^ (53 : ℕ)) ^ 2 ≤ 100 * x * (1 - 1 / 2 ^ (53 : ℕ)) := by
      have hx1 : q * (1 - 1 / 2 ^ (53 : ℕ)) ≤ x := by linarith
      nlinarith
    linarith
  · have : 100 * x * (1 + 1 / 2 ^ (53 : ℕ)) ≤ 100 * q * (1 + 1 / 2 ^ (53 : ℕ)) ^ 2 := by
      have hx1 : x ≤ q * (1 + 1 / 2 ^ (53 : ℕ)) := by linarith
      nlinarith
    linarith

/-- The double quotient `t / t` is exactly 1. -/
theorem roundToDouble_self (t : ℕ) (ht : 0 < t) : roundToDouble t t = ⟨2 ^ 52, -52⟩ := by
  have hne : t ≠ 0 := ht.ne'
  have hs : (52 : ℤ) + (floorLog2 t : ℤ) - (floorLog2 t : ℤ) = 52 := by ring
  have hsc : scaleFraction t t 52 = (t * 2 ^ 52, t) := by simp [scaleFraction]
  have hnlt : ¬ t * 2 ^ 52 < 2 ^ 52 * t := by omega
  have hr : roundHalfEven (t * 2 ^ 52) t = 2 ^ 52 := by
    simp [roundHalfEven, Nat.mul_mod_right, ht, Nat.mul_div_cancel_left _ ht]
  simp only [roundToDouble, hne, if_false, hs, hsc, hnlt, hr]

/-- The double value of `(t / t) * 100` is exactly 100. -/
theorem percentage_full (t : ℕ) (ht : 0 < t) : percentage t t = 100 := by
  rw [percentage, divDouble, roundToDouble_self t ht]
  have : mulDouble ⟨2 ^ 52, -52⟩ 100 = ⟨7036874417766400, -46⟩ := by decide
  rw [this]
  norm_num [Double.toRat]

/-- The double value of `(0 / t) * 100` is exactly 0. -/
theorem percentage_zero (t : ℕ) : percentage 0 t = 0 := by
  unfold percentage
  have : mulDouble (divDouble 0 t) 100 = ⟨0, 0⟩ := by
    simp [divDouble, roundToDouble, mulDouble]
  rw [this]
  norm_num [Double.toRat]

/-- The double value of `(c / t) * 100` is non-negative. -/
theorem percentage_nonneg (c t : ℕ) : 0 ≤ percentage c t :=
  Double.toRat_nonneg _

/-- Upper bound: `(c / t) * 100` in doubles exceeds `100 * c / t` by at most the fraction
`2 ^ -51` of it. -/
theorem percentage_le (c t : ℕ) (ht : 0 < t) :
    percentage c t ≤ 100 * ((c : ℚ) / t) * (1 + 1 / 2 ^ (51 : ℕ)) := by
  have h := (percentage_bounds c t ht).2
  have hq : (0 : ℚ) ≤ 100 * ((c : ℚ) / t) := by positivity
  have hc : (1 + 1 / 2 ^ (53 : ℕ) : ℚ) ^ 2 ≤ 1 + 1 / 2 ^ (51 : ℕ) := by norm_num
  exact h.trans (mul_le_mul_of_nonneg_left hc hq)

/-- Lower bound: `(c / t) * 100` in doubles falls short of `100 * c / t` by at most the
fraction `2 ^ -52` of it. -/
theorem percentage_ge (c t : ℕ) (ht : 0 < t) :
    100 * ((c : ℚ) / t) * (1 - 1 / 2 ^ (52 : ℕ)) ≤ percentage c t := by
  have h := (percentage_bounds c t ht).1
  have hq : (0 : ℚ) ≤ 100 * ((c : ℚ) / t) := by positivity
  have hc : (1 - 1 / 2 ^ (52 : ℕ) : ℚ) ≤ (1 - 1 / 2 ^ (53 : ℕ)) ^ 2 := by norm_num
  exact (mul_le_mul_of_nonneg_left hc hq).trans h

/-- The error of `(c / t) * 100` in doubles against `100 * c / t`. -/
theorem percentage_error (c t : ℕ) (ht : 0 < t) :
    |percentage c t - 100 * (c : ℚ) / t| ≤ 100 * (c : ℚ) / t / 2 ^ (51 : ℕ) := by
  have h1 := percentage_le c t ht
  have h2 := percentage_ge c t ht
  have hq : (0 : ℚ) ≤ 100 * ((c : ℚ) / t) := by positivity
  have e : 100 * (c : ℚ) / t = 100 * ((c : ℚ) / t) := by ring
  rw [e, abs_le]
  have h52 : 100 * ((c : ℚ) / t) * (1 / 2 ^ (52 : ℕ)) ≤ 100 * ((c : ℚ) / t) / 2 ^ (51 : ℕ) := by
    rw [mul_one_div]
    apply div_le_div_of_nonneg_left hq (by norm_num) (by norm_num)
  constructor
  · linarith
  · have : 100 * ((c : ℚ) / t) * (1 + 1 / 2 ^ (51 : ℕ))
        = 100 * ((c : ℚ) / t) + 100 * ((c : ℚ) / t) / 2 ^ (51 : ℕ) := by ring
    linarith

/-- For counters in the range of the model, the double value of `(c / t) * 100` is 100
exactly when `c = t`. -/
theorem percentage_eq_hundred_iff (c t : ℕ) (ht : 0 < t) (hc : c < 2 ^ 51) :
    percentage c t = 100 ↔ c = t := by
  constructor
  · intro h
    by_contra hne
    have htq : (0 : ℚ) < t := by exact_mod_cast ht
    have hcq : (c : ℚ) < 2 ^ (51 : ℕ) := by exact_mod_cast hc
    rcases Nat.lt_or_gt_of_ne hne with hlt | hgt
    · have h1 := percentage_le c t ht
      have hct : (c : ℚ) + 1 ≤ t := by exact_mod_cast hlt
      have hlt100 : 100 * ((c : ℚ) / t) * (1 + 1 / 2 ^ (51 : ℕ)) < 100 := by
        have : (c : ℚ) / t * (1 + 1 / 2 ^ (51 : ℕ)) < 1 := by
          rw [div_mul_eq_mul_div, div_lt_one htq]
          have : (c : ℚ) * (1 / 2 ^ (51 : ℕ)) < 1 := by
            rw [mul_one_div, div_lt_one (by norm_num)]
            exact hcq
          linarith
        linarith
      linarith
    · have h1 := percentage_ge c t ht
      have hct : (t : ℚ) + 1 ≤ c := by exact_mod_cast hgt
      have hgt100 : 100 < 100 * ((c : ℚ) / t) * (1 - 1 / 2 ^ (52 : ℕ)) := by
        have : 1 < (c : ℚ) / t * (1 - 1 / 2 ^ (52 : ℕ)) := by
          rw [div_mul_eq_mul_div, one_lt_div htq]
          have : (c : ℚ) * (1 / 2 ^ (52 : ℕ)) < 1 := by
            rw [mul_one_div, div_lt_one (by norm_num)]
            linarith [show (2 : ℚ) ^ (51 : ℕ) ≤ 2 ^ (52 : ℕ) by norm_num]
          linarith
        linarith
      linarith
  · rintro rfl
    exact percentage_full c ht

/-- For counters in the range of the model, the double value of `(c / t) * 100` grows with
`c`. -/
theorem percentage_mono (c1 c2 t : ℕ) (ht : 0 < t) (hle : c1 ≤ c2) (hc : c1 < 2 ^ 50) :
    percentage c1 t ≤ percentage c2 t := by
  rcases Nat.eq_or_lt_of_le hle with rfl | hlt
  · exact le_refl _
  · have h1 := percentage_le c1 t ht
    have h2 := percentage_ge c2 t ht
    have htq : (0 : ℚ) < t := by exact_mod_cast ht
    have hcq : (c1 : ℚ) < 2 ^ (50 : ℕ) := by exact_mod_cast hc
    have hc12 : (c1 : ℚ) + 1 ≤ c2 := by exact_mod_cast hlt
    have hc1 : (0 : ℚ) ≤ c1 := by positivity
    have key : (c1 : ℚ) * (1 + 1 / 2 ^ (51 : ℕ)) ≤ (c2 : ℚ) * (1 - 1 / 2 ^ (52 : ℕ)) := by
      have h3 : ((c1 : ℚ) + 1) * (1 - 1 / 2 ^ (52 : ℕ)) ≤ (c2 : ℚ) * (1 - 1 / 2 ^ (52 : ℕ)) :=
        mul_le_mul_of_nonneg_right hc12 (by norm_num)
      have h4 : (c1 : ℚ) * (1 / 2 ^ (51 : ℕ) + 1 / 2 ^ (52 : ℕ)) ≤ 1 - 1 / 2 ^ (52 : ℕ) := by
        have : (c1 : ℚ) * (1 / 2 ^ (51 : ℕ) + 1 / 2 ^ (52 : ℕ))
            ≤ 2 ^ (50 : ℕ) * (1 / 2 ^ (51 : ℕ) + 1 / 2 ^ (52 : ℕ)) :=
          mul_le_mul_of_nonneg_right hcq.le (by norm_num)
        have e : (2 : ℚ) ^ (50 : ℕ) * (1 / 2 ^ (51 : ℕ) + 1 / 2 ^ (52 : ℕ)) ≤ 1 - 1 / 2 ^ (52 : ℕ) := by
          norm_num
        linarith
      nlinarith
    have : 100 * ((c1 : ℚ) / t) * (1 + 1 / 2 ^ (51 : ℕ))
        ≤ 100 * ((c2 : ℚ) / t) * (1 - 1 / 2 ^ (52 : ℕ)) := by
      have e1 : 100 * ((c1 : ℚ) / t) * (1 + 1 / 2 ^ (51 : ℕ))
          = 100 / t * ((c1 : ℚ) * (1 + 1 / 2 ^ (51 : ℕ))) := by ring
      have e2 : 100 * ((c2 : ℚ) / t) * (1 - 1 / 2 ^ (52 : ℕ))
          = 100 / t * ((c2 : ℚ) * (1 - 1 / 2 ^ (52 : ℕ))) := by ring
      rw [e1, e2]
      exact mul_le_mul_of_nonneg_left key (by positivity)
    linarith

/-- The double value of `(1 / 2) * 100` is exactly 50. -/
theorem percentage_one_half : percentage 1 2 = 50 := by
  have h : mulDouble (divDouble 1 2) 100 = ⟨7036874417766400, -47⟩ := by decide
  rw [percentage, h]
  norm_num [Double.toRat]

/-- The double value of `(7 / 25) * 100` is `28 + 2 ^ -48`, the double next above 28. -/
theorem percentage_seven_of_twenty_five :
    percentage 7 25 = 7881299347898369 / 281474976710656 := by
  have h : mulDouble (divDouble 7 25) 100 = ⟨7881299347898369, -48⟩ := by decide
  rw [percentage, h]
  norm_num [Double.toRat]

/-! ## The batched loop visits the customers in order -/

/-- The inner loop over a concatenation is the loop over the first part followed, unless it
threw, by the loop over the second. -/
theorem processBatch_append (env : Nat → RecipientEnv) (a b : List Customer) (k : Nat)
    (s : RunState) :
    processBatch env k (a ++ b) s =
      match processBatch env k a s with
      | (s1, some err) => (s1, some err)
      | (s1, none) => processBatch env (k + a.length) b s1 := by
  induction a generalizing k s with
  | nil => simp [processBatch]
  | cons c cs ih =>
    simp only [List.cons_append, processBatch, List.length_cons]
    rcases h : processRecipient (env k) c s with ⟨s1, _ | err⟩
    · simp only
      rw [show k + (cs.length + 1) = k + 1 + cs.length by omega]
      exact ih (k + 1) s1
    · rfl

/-- With fuel for every remaining customer the outer loop entered at index `i` does what a
single pass over `customers.slice(i)` does: batching changes nothing, and the fuel is never
exhausted. -/
theorem processBatches_eq_processBatch (env : Nat → RecipientEnv) (customers : List Customer)
    (fuel i : Nat) (s : RunState) (hfuel : customers.length ≤ i + fuel) :
    processBatches env customers fuel i s = processBatch env i (customers.drop i) s := by
  induction fuel generalizing i s with
  | zero =>
    have : customers.drop i = [] := List.drop_eq_nil_of_le (by omega)
    simp [processBatches, this, processBatch]
  | succ fuel ih =>
    by_cases hi : i < customers.length
    · have hsplit : customers.drop i
          = (customers.drop i).take batchSize ++ customers.drop (i + batchSize) := by
        rw [← List.drop_drop, List.take_append_drop]
      simp only [processBatches, hi, if_true]
      conv_rhs => rw [hsplit, processBatch_append]
      rcases h : processBatch env i ((customers.drop i).take batchSize) s with ⟨s1, _ | err⟩
      · simp only
        rw [ih (i + batchSize) s1 (by simp only [batchSize]; omega)]
        by_cases hlen : i + batchSize ≤ customers.length
        · have : ((customers.drop i).take batchSize).length = batchSize := by
            simp only [List.length_take, List.length_drop]; omega
          rw [this]
        · have : customers.drop (i + batchSize) = [] := List.drop_eq_nil_of_le (by omega)
          simp [this, processBatch]
      · rfl
    · have : customers.drop i = [] := List.drop_eq_nil_of_le (by omega)
      simp [processBatches, hi, this, processBatch]

/-- The loop of `processMessages` is one pass over the whole customer array. -/
theorem processBatches_all (env : Nat → RecipientEnv) (customers : List Customer)
    (s : RunState) :
    processBatches env customers customers.length 0 s = processBatch env 0 customers s := by
  rw [processBatches_eq_processBatch env customers customers.length 0 s (by omega)]
  rfl

/-! ## The failure path's lookup of the PENDING log -/

/-- When no document of the collection matches, `findOne` on the collection extended by one
document looks at that document only. -/
theorem findOne_append_singleton (p : CommunicationLog → Bool) (logs : List CommunicationLog)
    (l : CommunicationLog) (hnone : ∀ x ∈ logs, p x = false) :
    findOne p (logs ++ [l]) = if p l then some (logs.length, l) else none := by
  induction logs with
  | nil => by_cases h : p l <;> simp [findOne, h]
  | cons x xs ih =>
    have hx : p x = false := hnone x (List.mem_cons_self _ _)
    have hxs : ∀ y ∈ xs, p y = false := fun y hy => hnone y (List.mem_cons_of_mem _ hy)
    have ih2 := ih hxs
    by_cases h : p l <;> simp [findOne, hx, ih2, h]

/-- Overwriting the last document of a collection. -/
theorem set_append_singleton (logs : List CommunicationLog) (l l2 : CommunicationLog) :
    (logs ++ [l]).set logs.length l2 = logs ++ [l2] := by
  induction logs with
  | nil => rfl
  | cons x xs ih => simp [List.set, ih]

/-- The fresh log matches the PENDING filter of its own campaign and customer. -/
theorem pendingFilter_newLog (e : RecipientEnv) (this : Campaign) (c : Customer) :
    pendingFilter this._id c._id (newLog e this c) = true := by
  simp [pendingFilter, newLog]

/-- A log marked SENT no longer matches a PENDING filter. -/
theorem pendingFilter_markSent (e : RecipientEnv) (r : VendorResult) (l : CommunicationLog)
    (a b : Nat) : pendingFilter a b (markSent e r l) = false := by
  simp [pendingFilter, markSent]

/-- Recipient step, log side.  If the PENDING log is stored and no PENDING log for this
campaign and customer was in the collection, an iteration that does not throw adds exactly
one document to the collection, for this campaign and customer, in status SENT or FAILED,
and touches no other document. -/
theorem processRecipient_logs (e : RecipientEnv) (c : Customer) (s s1 : RunState)
    (hcreate : e.saveLogPending = none)
    (hnone : ∀ x ∈ s.logs, pendingFilter s.campaign._id c._id x = false)
    (hstep : processRecipient e c s = (s1, none)) :
    s1.campaign._id = s.campaign._id ∧
    ∃ l, s1.logs = s.logs ++ [l] ∧ l.campaignId = s.campaign._id ∧ l.customerId = c._id ∧
      (l.status = "SENT" ∨ l.status = "FAILED") := by
  have hfindNew : findOne (pendingFilter s.campaign._id c._id) (s.logs ++ [newLog e s.campaign c])
      = some (s.logs.length, newLog e s.campaign c) := by
    rw [findOne_append_singleton _ _ _ hnone, pendingFilter_newLog]; rfl
  have hfindSent : ∀ r, findOne (pendingFilter s.campaign._id c._id)
      (s.logs ++ [markSent e r (newLog e s.campaign c)]) = none := by
    intro r
    rw [findOne_append_singleton _ _ _ hnone, pendingFilter_markSent]; rfl
  simp only [processRecipient, trySend, hcreate, sendMessage, set_append_singleton] at hstep
  rcases hv : e.vendorSuccess with _ | _ <;>
  rcases h1 : e.saveLogSent with _ | err1 <;>
  rcases h2 : e.saveCampaignSent with _ | err2 <;>
  rcases h3 : e.findPending with _ | err3 <;>
  rcases h4 : e.saveLogFailed with _ | err4 <;>
  rcases h5 : e.saveCampaignFailed with _ | err5 <;>
  simp [hv, h1, h2, h3, h4, h5, onSendError, setStats, hfindNew, hfindSent,
    set_append_singleton] at hstep <;>
  subst hstep <;>
  simp [markSent, markFailed, newLog]

/-- A log in a terminal status matches no PENDING filter. -/
theorem pendingFilter_terminal (a b : Nat) (l : CommunicationLog)
    (h : l.status = "SENT" ∨ l.status = "FAILED") : pendingFilter a b l = false := by
  rcases h with h | h <;> simp [pendingFilter, h]

/-- When no document of the collection matches, `findOne` returns `null`. -/
theorem findOne_none (p : CommunicationLog → Bool) (logs : List CommunicationLog)
    (hnone : ∀ x ∈ logs, p x = false) : findOne p logs = none := by
  induction logs with
  | nil => rfl
  | cons x xs ih =>
    have hx : p x = false := hnone x (List.mem_cons_self _ _)
    simp [findOne, hx, ih (fun y hy => hnone y (List.mem_cons_of_mem _ hy))]

/-- Recipient step, log side, when the PENDING log is not stored.  If no PENDING log for this
campaign and customer was in the collection, an iteration that does not throw leaves the
collection as it was. -/
theorem processRecipient_no_log (e : RecipientEnv) (c : Customer) (s s1 : RunState)
    (hreject : e.saveLogPending ≠ none)
    (hnone : ∀ x ∈ s.logs, pendingFilter s.campaign._id c._id x = false)
    (hstep : processRecipient e c s = (s1, none)) :
    s1.campaign._id = s.campaign._id ∧ s1.logs = s.logs := by
  have hfind := findOne_none (pendingFilter s.campaign._id c._id) s.logs hnone
  rcases h0 : e.saveLogPending with _ | err0
  · exact absurd h0 hreject
  · rcases h3 : e.findPending with _ | err3 <;>
      rcases h5 : e.saveCampaignFailed with _ | err5 <;>
      simp [processRecipient, trySend, onSendError, h0, h3, h5, hfind, setStats] at hstep
    subst hstep
    exact ⟨rfl, rfl⟩

/-- Loop, log side: a pass that does not throw, over customers who had no PENDING log of this
campaign in the collection, appends one terminal log for each customer whose PENDING log was
stored, in order, none for the others, and leaves the earlier documents as they were. -/
theorem processBatch_logs (env : Nat → RecipientEnv) (cs : List Customer) (k : Nat)
    (s s1 : RunState)
    (hnone : ∀ x ∈ s.logs, ∀ c ∈ cs, pendingFilter s.campaign._id c._id x = false)
    (hrun : processBatch env k cs s = (s1, none)) :
    s1.campaign._id = s.campaign._id ∧
    ∃ created, s1.logs = s.logs ++ created ∧
      created.map (fun l => l.customerId) = (loggedCustomers env k cs).map (fun c => c._id) ∧
      ∀ l ∈ created, l.campaignId = s.campaign._id ∧ (l.status = "SENT" ∨ l.status = "FAILED") := by
  induction cs generalizing k s with
  | nil =>
    simp only [processBatch, Prod.mk.injEq, and_true] at hrun
    subst hrun
    exact ⟨rfl, [], by simp [loggedCustomers]⟩
  | cons c cs ih =>
    simp only [processBatch] at hrun
    rcases hstep : processRecipient (env k) c s with ⟨s2, _ | err⟩
    · simp only [hstep] at hrun
      by_cases hcreate : (env k).saveLogPending = none
      · obtain ⟨hid, l, hlogs, hl1, hl2, hl3⟩ :=
          processRecipient_logs (env k) c s s2 hcreate
            (fun x hx => hnone x hx c (List.mem_cons_self _ _)) hstep
        have hnone2 : ∀ x ∈ s2.logs, ∀ d ∈ cs,
            pendingFilter s2.campaign._id d._id x = false := by
          intro x hx d hd
          rw [hlogs, List.mem_append, List.mem_singleton] at hx
          rcases hx with hx | rfl
          · rw [hid]; exact hnone x hx d (List.mem_cons_of_mem _ hd)
          · exact pendingFilter_terminal _ _ _ hl3
        obtain ⟨hid2, created, hlogs2, hmap, hall⟩ := ih (k + 1) s2 hnone2 hrun
        refine ⟨hid2.trans hid, l :: created, ?_, ?_, ?_⟩
        · rw [hlogs2, hlogs]; simp
        · simp [loggedCustomers, hcreate, hl2, hmap]
        · intro x hx
          rcases List.mem_cons.mp hx with rfl | hx
          · exact ⟨hl1, hl3⟩
          · have := hall x hx
            rwa [hid] at this
      · obtain ⟨hid, hlogs⟩ := processRecipient_no_log (env k) c s s2 hcreate
          (fun x hx => hnone x hx c (List.mem_cons_self _ _)) hstep
        have hnone2 : ∀ x ∈ s2.logs, ∀ d ∈ cs,
            pendingFilter s2.campaign._id d._id x = false := by
          intro x hx d hd
          rw [hlogs] at hx
          rw [hid]; exact hnone x hx d (List.mem_cons_of_mem _ hd)
        obtain ⟨hid2, created, hlogs2, hmap, hall⟩ := ih (k + 1) s2 hnone2 hrun
        refine ⟨hid2.trans hid, created, ?_, ?_, ?_⟩
        · rw [hlogs2, hlogs]
        · simp [loggedCustomers, hcreate, hmap]
        · intro x hx
          have := hall x hx
          rwa [hid] at this
    · simp [hstep] at hrun

/-- When every PENDING log is stored, every customer is logged. -/
theorem loggedCustomers_of_all_stored (env : Nat → RecipientEnv) (cs : List Customer) (k : Nat)
    (hcreate : ∀ j, j < cs.length → (env (k + j)).saveLogPending = none) :
    loggedCustomers env k cs = cs := by
  induction cs generalizing k with
  | nil => rfl
  | cons c cs ih =>
    have h0 : (env k).saveLogPending = none := by simpa using hcreate 0 (by simp)
    have h1 : ∀ j, j < cs.length → (env (k + 1 + j)).saveLogPending = none := by
      intro j hj
      have := hcreate (j + 1) (by simp only [List.length_cons]; omega)
      rwa [show k + (j + 1) = k + 1 + j by omega] at this
    simp [loggedCustomers, h0, ih (k + 1) h1]

/-- A run resolves only along the path on which every campaign-level step succeeded: the
segment was found, the loop did not throw, and the final state is the loop's with status
`completed`. -/
theorem processMessages_ok (env : Env) (this : Campaign) (logs : List CommunicationLog)
    (customers : List Customer) (hseg : env.findSegment = .ok (some customers))
    (hdone : (processMessages env this logs).result = .ok ()) :
    ∃ s4,
      processBatch env.recipient 0 customers (loopEntry this logs customers.length)
        = (s4, none) ∧
      processMessages env this logs =
        { campaign := { s4.campaign with status := .completed },
          saved := s4.saved ++ [{ s4.campaign with status := .completed }],
          logs := s4.logs, result := .ok () } := by
  simp only [processMessages, hseg, processBatches_all, loopEntry] at hdone ⊢
  rcases h1 : env.saveRunning with _ | e1
  · rcases h2 : env.saveAudience with _ | e2
    · simp only [h1, h2, List.nil_append, List.singleton_append] at hdone ⊢
      generalize processBatch env.recipient 0 customers _ = r at hdone ⊢
      rcases r with ⟨s4, _ | e3⟩
      · rcases h3 : env.saveCompleted with _ | e4
        · exact ⟨s4, rfl, by simp [h3]⟩
        · rcases h4 : env.saveFailed with _ | e5 <;> simp [h3, h4, onCampaignError] at hdone
      · rcases h4 : env.saveFailed with _ | e5 <;> simp [h4, onCampaignError] at hdone
    · rcases h4 : env.saveFailed with _ | e5 <;> simp [h1, h2, h4, onCampaignError] at hdone
  · rcases h4 : env.saveFailed with _ | e5 <;> simp [h1, h4, onCampaignError] at hdone

/-! ## The loop when persistence succeeds -/

/-- Writing the counters twice keeps the last values. -/
theorem setStats_setStats (c : Campaign) (a b t a2 b2 t2 : Nat) :
    setStats (setStats c a b t) a2 b2 t2 = setStats c a2 b2 t2 := rfl

/-- Recipient step, counter side.  When persistence succeeds the iteration does not throw,
adds one to `sent` if the vendor succeeded and to `failed` otherwise, writes both counters to
the campaign and persists it. -/
theorem processRecipient_counts (e : RecipientEnv) (c : Customer) (s : RunState)
    (hok : e.persistenceOk) :
    ∃ s1 t, processRecipient e c s = (s1, none) ∧
      s1.sent = s.sent + (if e.vendorSuccess then 1 else 0) ∧
      s1.failed = s.failed + (if e.vendorSuccess then 0 else 1) ∧
      s1.campaign = setStats s.campaign s1.sent s1.failed t ∧
      s1.saved = s.saved ++ [s1.campaign] := by
  obtain ⟨h0, h1, h2, h3, h4, h5⟩ := hok
  rcases hv : e.vendorSuccess with _ | _
  · rcases hf : findOne (pendingFilter s.campaign._id c._id) (s.logs ++ [newLog e s.campaign c])
      with _ | ⟨i, found⟩ <;>
    simp [processRecipient, trySend, onSendError, sendMessage, h0, h1, h2, h3, h4, h5, hv, hf]
  · simp [processRecipient, trySend, onSendError, sendMessage, h0, h1, h2, h3, h4, h5, hv]

/-- Loop, counter side.  When persistence succeeds, a pass over `cs` does not throw; it adds to
`sent` the number of vendor successes and to `sent + failed` the number of customers; unless
`cs` is empty, the campaign ends with both counters written to it; and the campaign was
persisted once per customer, the j-th of these states recording `j` more processed recipients
than the counters held at the start. -/
theorem processBatch_counts (env : Nat → RecipientEnv) (hok : ∀ k, (env k).persistenceOk)
    (cs : List Customer) (k : Nat) (s : RunState) :
    ∃ s1, processBatch env k cs s = (s1, none) ∧
      s1.sent = s.sent + vendorSuccesses env k cs.length ∧
      s1.sent + s1.failed = s.sent + s.failed + cs.length ∧
      (cs = [] → s1 = s) ∧
      (cs ≠ [] → ∃ t, s1.campaign = setStats s.campaign s1.sent s1.failed t) ∧
      ∃ added, s1.saved = s.saved ++ added ∧
        (∀ x ∈ added, ∃ a b t, x = setStats s.campaign a b t) ∧
        added.map processed = List.range' (s.sent + s.failed + 1) cs.length := by
  induction cs generalizing k s with
  | nil => exact ⟨s, rfl, by simp [vendorSuccesses], by simp, fun _ => rfl, by simp, [], by simp⟩
  | cons c cs ih =>
    obtain ⟨s2, t, hstep, hsent, hfailed, hcamp, hsaved⟩ := processRecipient_counts (env k) c s (hok k)
    obtain ⟨s1, hrun, hsent1, hsum1, hnil1, hcons1, added, hsaved1, hadded1, hmap1⟩ := ih (k + 1) s2
    have hsum2 : s2.sent + s2.failed = s.sent + s.failed + 1 := by
      rw [hsent, hfailed]; split <;> omega
    refine ⟨s1, ?_, ?_, ?_, ?_, ?_, s2.campaign :: added, ?_, ?_, ?_⟩
    · simp only [processBatch, hstep, hrun]
    · rw [hsent1, hsent]; simp only [vendorSuccesses, List.length_cons]; omega
    · rw [hsum1, hsum2]; simp only [List.length_cons]; omega
    · intro h; simp at h
    · intro _
      by_cases hcs : cs = []
      · rw [hnil1 hcs]; exact ⟨t, hcamp⟩
      · obtain ⟨t1, ht1⟩ := hcons1 hcs
        exact ⟨t1, by rw [ht1, hcamp, setStats_setStats]⟩
    · rw [hsaved1, hsaved]; simp
    · intro x hx
      rcases List.mem_cons.mp hx with rfl | hx
      · exact ⟨_, _, _, hcamp⟩
      · obtain ⟨a, b, t1, rfl⟩ := hadded1 x hx
        exact ⟨a, b, t1, by rw [hcamp, setStats_setStats]⟩
    · simp only [List.map_cons, hmap1, List.length_cons, List.range'_succ, hsum2]
      congr 1
      rw [hcamp]; simp [processed, setStats, hsum2]

/-- When persistence succeeds and the segment is found, the run is its loop followed by the
save of status `completed`. -/
theorem processMessages_of_persistenceOk (env : Env) (this : Campaign)
    (logs : List CommunicationLog) (customers : List Customer) (hok : env.persistenceOk)
    (hseg : env.findSegment = .ok (some customers)) :
    ∃ s4,
      processBatch env.recipient 0 customers (loopEntry this logs customers.length)
        = (s4, none) ∧
      processMessages env this logs =
        { campaign := { s4.campaign with status := .completed },
          saved := s4.saved ++ [{ s4.campaign with status := .completed }],
          logs := s4.logs, result := .ok () } := by
  obtain ⟨h1, h2, h3, hrec⟩ := hok
  obtain ⟨s4, hrun, -⟩ :=
    processBatch_counts env.recipient hrec customers 0 (loopEntry this logs customers.length)
  refine ⟨s4, hrun, ?_⟩
  simp only [processMessages, hseg, processBatches_all, h1, h2, h3]
  simp only [loopEntry, List.nil_append, List.singleton_append] at hrun
  simp only [List.nil_append, List.singleton_append, hrun]

/-- Summary of a run when persistence succeeds and the segment resolves to `customers`: the
run resolves with status `completed` and `audienceSize` the number of customers; for a
non-empty audience `sent` is the number of vendor successes and `sent + failed` the number of
customers; for an empty audience `sent` and `failed` are left as they were. -/
theorem processMessages_summary (env : Env) (this : Campaign) (logs : List CommunicationLog)
    (customers : List Customer) (hok : env.persistenceOk)
    (hseg : env.findSegment = .ok (some customers)) :
    (processMessages env this logs).result = .ok () ∧
    (processMessages env this logs).campaign.status = .completed ∧
    (processMessages env this logs).campaign.stats.audienceSize = customers.length ∧
    (customers ≠ [] →
      (processMessages env this logs).campaign.stats.sent
        = vendorSuccesses env.recipient 0 customers.length ∧
      processed (processMessages env this logs).campaign = customers.length) ∧
    (customers = [] →
      (processMessages env this logs).campaign.stats.sent = this.stats.sent ∧
      (processMessages env this logs).campaign.stats.failed = this.stats.failed) := by
  obtain ⟨s4, hrun, hout⟩ := processMessages_of_persistenceOk env this logs customers hok hseg
  obtain ⟨s4b, hrun2, hsent, hsum, hnil, hcons, -⟩ :=
    processBatch_counts env.recipient hok.2.2.2 customers 0 (loopEntry this logs customers.length)
  rw [hrun] at hrun2
  obtain rfl : s4 = s4b := by simpa using hrun2
  rw [hout]
  refine ⟨rfl, rfl, ?_, ?_, ?_⟩
  · by_cases hcs : customers = []
    · rw [hnil hcs]; rfl
    · obtain ⟨t, ht⟩ := hcons hcs
      simp [ht, setStats, loopEntry]
  · intro hcs
    obtain ⟨t, ht⟩ := hcons hcs
    simp only [loopEntry, Nat.zero_add] at hsent hsum
    simp only [ht, setStats, processed]
    exact ⟨hsent, hsum⟩
  · intro hcs
    rw [hnil hcs]
    exact ⟨rfl, rfl⟩

/-- The persisted history of a run when persistence succeeds and the segment is found: the two
states saved before the loop, one state per recipient (status `running`, the j-th recording
`j` processed recipients), and the final campaign. -/
theorem processMessages_saved (env : Env) (this : Campaign) (logs : List CommunicationLog)
    (customers : List Customer) (hok : env.persistenceOk)
    (hseg : env.findSegment = .ok (some customers)) :
    ∃ added,
      (processMessages env this logs).saved
        = (loopEntry this logs customers.length).saved ++ added
            ++ [(processMessages env this logs).campaign] ∧
      (∀ x ∈ added, ∃ a b t,
        x = setStats (loopEntry this logs customers.length).campaign a b t) ∧
      added.map processed = List.range' 1 customers.length := by
  obtain ⟨s4, hrun, hout⟩ := processMessages_of_persistenceOk env this logs customers hok hseg
  obtain ⟨s4b, hrun2, -, -, -, -, added, hsaved, hadded, hmap⟩ :=
    processBatch_counts env.recipient hok.2.2.2 customers 0 (loopEntry this logs customers.length)
  rw [hrun] at hrun2
  obtain rfl : s4 = s4b := by simpa using hrun2
  refine ⟨added, ?_, hadded, ?_⟩
  · rw [hout]; simp only [hsaved]
  · simpa [loopEntry] using hmap

/-- A scripted run has succeeding persistence. -/
theorem scriptedEnv_persistenceOk (customers : List Customer) (vendorOk : Nat → Bool) :
    (scriptedEnv customers vendorOk).persistenceOk :=
  ⟨rfl, rfl, rfl, fun _ => ⟨rfl, rfl, rfl, rfl, rfl, rfl⟩⟩

/-- The number `getProgress` returns, read off the counters of the campaign. -/
theorem getProgress_counters :
    (fun c : Campaign => (getProgress c).1) =
      (fun t : ℕ × ℕ × ℕ => if t.1 > 0 then percentage (t.2.1 + t.2.2) t.1 else 0)
        ∘ counters := by
  funext c
  simp [getProgress, counters]

/-- The fresh log does not depend on the counters of the campaign. -/
theorem newLog_setStats (e : RecipientEnv) (c : Campaign) (a b t : Nat) (customer : Customer) :
    newLog e (setStats c a b t) customer = newLog e c customer := rfl

/-- The expected log does not depend on the counters of the campaign. -/
theorem expectedLog_setStats (e : RecipientEnv) (c : Campaign) (a b t : Nat)
    (customer : Customer) :
    expectedLog e (setStats c a b t) customer = expectedLog e c customer := rfl

/-- The expected logs do not depend on the counters of the campaign. -/
theorem expectedLogs_setStats (env : Nat → RecipientEnv) (c : Campaign) (a b t : Nat)
    (k : Nat) (cs : List Customer) :
    expectedLogs env (setStats c a b t) k cs = expectedLogs env c k cs := by
  induction cs generalizing k with
  | nil => rfl
  | cons x xs ih => simp [expectedLogs, ih, expectedLog_setStats]

/-- The expected log is terminal. -/
theorem expectedLog_status (e : RecipientEnv) (c : Campaign) (customer : Customer) :
    (expectedLog e c customer).status = if e.vendorSuccess then "SENT" else "FAILED" := by
  unfold expectedLog
  split <;> rfl

/-- Recipient step when persistence succeeds and the customer has no PENDING log of this
campaign: the collection gains the expected log and nothing else changes in it. -/
theorem processRecipient_expected (e : RecipientEnv) (c : Customer) (s : RunState)
    (hok : e.persistenceOk)
    (hnone : ∀ x ∈ s.logs, pendingFilter s.campaign._id c._id x = false) :
    (processRecipient e c s).1.logs = s.logs ++ [expectedLog e s.campaign c] := by
  obtain ⟨h0, h1, h2, h3, h4, h5⟩ := hok
  have hfindNew : findOne (pendingFilter s.campaign._id c._id) (s.logs ++ [newLog e s.campaign c])
      = some (s.logs.length, newLog e s.campaign c) := by
    rw [findOne_append_singleton _ _ _ hnone, pendingFilter_newLog]; rfl
  rcases hv : e.vendorSuccess with _ | _ <;>
  simp [processRecipient, trySend, onSendError, sendMessage, h0, h1, h2, h3, h4, h5, hv,
    hfindNew, set_append_singleton, expectedLog]

/-- Loop when persistence succeeds and no customer of `cs` has a PENDING log of this campaign:
the collection gains the expected logs of `cs`, in order. -/
theorem processBatch_expected (env : Nat → RecipientEnv) (hok : ∀ k, (env k).persistenceOk)
    (cs : List Customer) (k : Nat) (s : RunState)
    (hnone : ∀ x ∈ s.logs, ∀ c ∈ cs, pendingFilter s.campaign._id c._id x = false) :
    (processBatch env k cs s).1.logs = s.logs ++ expectedLogs env s.campaign k cs := by
  induction cs generalizing k s with
  | nil => simp [processBatch, expectedLogs]
  | cons c cs ih =>
    obtain ⟨s2, t, hstep, -, -, hcamp, -⟩ := processRecipient_counts (env k) c s (hok k)
    have hlogs := processRecipient_expected (env k) c s (hok k)
      (fun x hx => hnone x hx c (List.mem_cons_self _ _))
    rw [hstep] at hlogs
    simp only at hlogs
    have hid : s2.campaign._id = s.campaign._id := by rw [hcamp]; rfl
    have hnone2 : ∀ x ∈ s2.logs, ∀ d ∈ cs, pendingFilter s2.campaign._id d._id x = false := by
      intro x hx d hd
      rw [hlogs, List.mem_append, List.mem_singleton] at hx
      rcases hx with hx | rfl
      · rw [hid]; exact hnone x hx d (List.mem_cons_of_mem _ hd)
      · apply pendingFilter_terminal
        rw [expectedLog_status]
        split <;> simp
    simp only [processBatch, hstep]
    rw [ih (k + 1) s2 hnone2, hlogs, hcamp, expectedLogs_setStats]
    simp [expectedLogs]

/-! ## Runs in which only the vendor can fail -/

/-- The expected logs depend on the campaign through its identifier, template and content
only. -/
theorem expectedLogs_congr (env : Nat → RecipientEnv) (c1 c2 : Campaign)
    (hid : c1._id = c2._id) (htemplate : c1.messageTemplate = c2.messageTemplate)
    (hcontent : c1.messageContent = c2.messageContent) (k : Nat) (cs : List Customer) :
    expectedLogs env c1 k cs = expectedLogs env c2 k cs := by
  induction cs generalizing k with
  | nil => rfl
  | cons x xs ih => simp [expectedLogs, ih, expectedLog, newLog, hid, htemplate, hcontent]

/-- Logs of a run when persistence succeeds, the segment resolves to `customers` and none of
them has a PENDING log of this campaign: the collection is the former one followed by the
expected log of every customer, in order. -/
theorem processMessages_logs (env : Env) (this : Campaign) (logs : List CommunicationLog)
    (customers : List Customer) (hok : env.persistenceOk)
    (hseg : env.findSegment = .ok (some customers))
    (hnostuck : ∀ x ∈ logs, ∀ c ∈ customers, pendingFilter this._id c._id x = false) :
    (processMessages env this logs).logs
      = logs ++ expectedLogs env.recipient this 0 customers := by
  obtain ⟨s4, hrun, hout⟩ := processMessages_of_persistenceOk env this logs customers hok hseg
  have h := processBatch_expected env.recipient hok.2.2.2 customers 0
    (loopEntry this logs customers.length) hnostuck
  rw [hrun] at h
  rw [hout]
  simp only at h ⊢
  rw [h, expectedLogs_congr env.recipient (loopEntry this logs customers.length).campaign this
    rfl rfl rfl 0 customers]
  rfl

/-- Counters of the persisted states of a run that starts with `sent = failed = 0`, when
persistence succeeds and the segment is found: no persisted state records more processed
recipients than its audience size. -/
theorem processMessages_first_run_bounded (env : Env) (this : Campaign)
    (logs : List CommunicationLog) (customers : List Customer) (hok : env.persistenceOk)
    (hseg : env.findSegment = .ok (some customers))
    (hsent : this.stats.sent = 0) (hfailed : this.stats.failed = 0) :
    ∀ x ∈ (processMessages env this logs).saved, processed x ≤ x.stats.audienceSize := by
  obtain ⟨-, -, hsize, hcons, hnil⟩ := processMessages_summary env this logs customers hok hseg
  obtain ⟨added, hsaved, hadded, hmap⟩ := processMessages_saved env this logs customers hok hseg
  intro x hx
  rw [hsaved, List.mem_append, List.mem_append, List.mem_singleton] at hx
  rcases hx with (hx | hx) | rfl
  · simp only [loopEntry, List.mem_cons, List.mem_singleton, List.not_mem_nil, or_false] at hx
    rcases hx with rfl | rfl <;> simp [processed, hsent, hfailed]
  · have hmem : processed x ∈ List.range' 1 customers.length := by
      rw [← hmap]; exact List.mem_map_of_mem _ hx
    obtain ⟨a, b, t, rfl⟩ := hadded x hx
    rw [List.mem_range'_1] at hmem
    have : (setStats (loopEntry this logs customers.length).campaign a b t).stats.audienceSize
        = customers.length := rfl
    omega
  · by_cases hcs : customers = []
    · obtain ⟨h1, h2⟩ := hnil hcs
      simp [processed, h1, h2, hsent, hfailed]
    · rw [(hcons hcs).2, hsize]

/-- Progress is never negative. -/
theorem getProgress_nonneg (c : Campaign) : 0 ≤ (getProgress c).1 := by
  simp only [getProgress]
  split
  · exact percentage_nonneg _ _
  · exact le_refl 0

/-- Progress of a campaign whose counters are 0. -/
theorem getProgress_of_zero (c : Campaign) (hsent : c.stats.sent = 0)
    (hfailed : c.stats.failed = 0) : (getProgress c).1 = 0 := by
  simp [getProgress, hsent, hfailed, percentage_zero]

/-- Progress read off the audience size and the number of processed recipients. -/
theorem getProgress_eq (c : Campaign) :
    (getProgress c).1
      = if 0 < c.stats.audienceSize then percentage (processed c) c.stats.audienceSize else 0 :=
  rfl

/-- For a fixed audience size, progress grows with the number of processed recipients (the
smaller number being in the range of the model). -/
theorem getProgress_mono (a b : Campaign) (hsize : a.stats.audienceSize = b.stats.audienceSize)
    (hle : processed a ≤ processed b) (hrange : processed a < 2 ^ 50) :
    (getProgress a).1 ≤ (getProgress b).1 := by
  rw [getProgress_eq, getProgress_eq, hsize]
  split
  · rename_i h
    exact percentage_mono _ _ _ h hle hrange
  · exact le_refl 0

/-- Progress over the persisted states of a run that starts with `sent = failed = 0`, when
persistence succeeds and the segment is found (a JavaScript array has fewer than `2 ^ 32`
elements): every persisted state has a progress at least that of every state persisted before
it. -/
theorem processMessages_first_run_monotone (env : Env) (this : Campaign)
    (logs : List CommunicationLog) (customers : List Customer) (hok : env.persistenceOk)
    (hseg : env.findSegment = .ok (some customers))
    (hsent : this.stats.sent = 0) (hfailed : this.stats.failed = 0)
    (hlen : customers.length < 2 ^ 32) :
    List.Pairwise (fun a b => (getProgress a).1 ≤ (getProgress b).1)
      (processMessages env this logs).saved := by
  obtain ⟨-, -, hsize, hcons, hnil⟩ := processMessages_summary env this logs customers hok hseg
  obtain ⟨added, hsaved, hadded, hmap⟩ := processMessages_saved env this logs customers hok hseg
  have hsizeAdded : ∀ x ∈ added, x.stats.audienceSize = customers.length := by
    intro x hx
    obtain ⟨a, b, t, rfl⟩ := hadded x hx
    rfl
  have hrange : ∀ x ∈ added, 1 ≤ processed x ∧ processed x < 1 + customers.length := by
    intro x hx
    have hmem : processed x ∈ List.range' 1 customers.length := by
      rw [← hmap]; exact List.mem_map_of_mem _ hx
    exact List.mem_range'_1.mp hmem
  have hsmall : ∀ x ∈ added, processed x < 2 ^ 50 := by
    intro x hx
    have := hrange x hx
    have h32 : (2 : ℕ) ^ 32 + 1 < 2 ^ 50 := by norm_num
    omega
  have hpair : List.Pairwise (fun a b => processed a < processed b) added := by
    have := List.pairwise_lt_range' 1 customers.length
    rw [← hmap, List.pairwise_map] at this
    exact this
  rw [hsaved]
  simp only [loopEntry, List.cons_append, List.nil_append, List.pairwise_cons,
    List.pairwise_append, List.mem_append, List.mem_singleton, List.mem_cons]
  refine ⟨?_, ?_, ?_, ?_, ?_⟩
  · intro x _
    rw [getProgress_of_zero _ (by exact hsent) (by exact hfailed)]
    exact getProgress_nonneg x
  · intro x _
    rw [getProgress_of_zero _ (by exact hsent) (by exact hfailed)]
    exact getProgress_nonneg x
  · exact hpair.imp_of_mem (fun {a b} ha hb hlt =>
      getProgress_mono a b ((hsizeAdded a ha).trans (hsizeAdded b hb).symm) (le_of_lt hlt)
        (hsmall a ha))
  · simp
  · intro a ha b hb
    rcases hb with hb | hb
    · subst hb
      have hlen0 : 0 < customers.length := by have := hrange a ha; omega
      have hcs : customers ≠ [] := List.length_pos.mp hlen0
      apply getProgress_mono
      · rw [hsizeAdded a ha, hsize]
      · rw [(hcons hcs).2]
        have := hrange a ha
        omega
      · exact hsmall a ha
    · exact absurd hb (List.not_mem_nil _)

/-- Counters at the end of a run that starts with `sent = failed = 0`, when persistence succeeds
and the segment resolves to `customers`: the run resolves with status `completed`,
`audienceSize` is the number of customers, `sent` the number of vendor successes, and
`sent + failed` the number of customers. -/
theorem processMessages_first_run_counts (env : Env) (this : Campaign)
    (logs : List CommunicationLog) (customers : List Customer) (hok : env.persistenceOk)
    (hseg : env.findSegment = .ok (some customers))
    (hsent : this.stats.sent = 0) (hfailed : this.stats.failed = 0) :
    (processMessages env this logs).result = .ok () ∧
    (processMessages env this logs).campaign.status = .completed ∧
    (processMessages env this logs).campaign.stats.audienceSize = customers.length ∧
    (processMessages env this logs).campaign.stats.sent
      = vendorSuccesses env.recipient 0 customers.length ∧
    processed (processMessages env this logs).campaign = customers.length := by
  obtain ⟨hres, hstat, hsize, hcons, hnil⟩ := processMessages_summary env this logs customers hok hseg
  refine ⟨hres, hstat, hsize, ?_, ?_⟩
  · by_cases hcs : customers = []
    · rw [(hnil hcs).1, hsent, hcs]; rfl
    · exact (hcons hcs).1
  · by_cases hcs : customers = []
    · simp only [processed]
      rw [(hnil hcs).1, (hnil hcs).2, hsent, hfailed, hcs]; rfl
    · exact (hcons hcs).2

/-! ## Two further runs -/

/-- A run can leave a PENDING log behind: when the save of the SENT log and then the save of
the FAILED log both reject, the run rejects, the campaign is `failed`, and the log of the
recipient stays PENDING in the collection. -/
theorem processMessages_outage_leaves_pending_log :
    (processMessages outageEnv draftCampaign []).result = .error "store down" ∧
    (processMessages outageEnv draftCampaign []).campaign.status = .failed ∧
    (processMessages outageEnv draftCampaign []).logs = [stuckLog] := by
  decide

/-- A recipient can be counted twice: when the vendor succeeds and the save of the campaign
after the send rejects, the inner `catch` counts the recipient as failed as well; the run over
one customer completes with `sent = 1`, `failed = 1`, `audienceSize = 1`, and a SENT log. -/
theorem processMessages_stats_save_rejects_counts_twice :
    (processMessages statsSaveDownEnv draftCampaign []).result = .ok () ∧
    (processMessages statsSaveDownEnv draftCampaign []).campaign.status = .completed ∧
    counters (processMessages statsSaveDownEnv draftCampaign []).campaign = (1, 1, 1) ∧
    (processMessages statsSaveDownEnv draftCampaign []).logs.map (fun l => l.status)
      = ["SENT"] := by
  decide

/-! ## Rendering -/

/-- A template in which neither placeholder occurs is rendered unchanged. -/
theorem renderMessage_without_placeholder (messageTemplate customerName messageContent : String)
    (hname : splitFirst "{{customerName}}".data messageTemplate.data = none)
    (hmessage : splitFirst "{{message}}".data messageTemplate.data = none) :
    renderMessage messageTemplate customerName messageContent = messageTemplate := by
  simp [renderMessage, jsReplace, hname, hmessage]

/-! ## Delivery receipts -/

/-- The delivery-receipt handler never writes to the campaign collection. -/
theorem deliveryReceipt_campaigns (env : ReceiptEnv) (req : ReceiptRequest) (db : Database) :
    (deliveryReceipt env req db).2.campaigns = db.campaigns := by
  simp only [deliveryReceipt]
  rcases req.logId with _ | logId
  · rfl
  · rcases hs : req.status with _ | status
    · rfl
    · rcases ht : truthy (some status) with _ | _
      · rfl
      · rcases env.updateError with _ | err
        · simp only
          generalize findByIdAndUpdate logId _ db.logs = r
          rcases r with ⟨_ | log, logs⟩ <;> rfl
        · rfl

/-- When the first document with the identifier is `l`, `findByIdAndUpdate` returns the updated
`l` and replaces `l` by it, every other document staying as it was. -/
theorem findByIdAndUpdate_known (logId : Nat) (update : CommunicationLog → CommunicationLog)
    (pre post : List CommunicationLog) (l : CommunicationLog) (hl : l._id = logId)
    (hpre : ∀ x ∈ pre, x._id ≠ logId) :
    findByIdAndUpdate logId update (pre ++ l :: post)
      = (some (update l), pre ++ update l :: post) := by
  induction pre with
  | nil => simp [findByIdAndUpdate, hl]
  | cons x xs ih =>
    have hx : x._id ≠ logId := hpre x (List.mem_cons_self _ _)
    have h2 := ih (fun y hy => hpre y (List.mem_cons_of_mem _ hy))
    simp [findByIdAndUpdate, hx, h2]

/-- When the first campaign with the identifier is `c`, `findById` returns it with its
position. -/
theorem findById_known (id : Nat) (pre post : List Campaign) (c : Campaign) (hc : c._id = id)
    (hpre : ∀ x ∈ pre, x._id ≠ id) :
    findById id (pre ++ c :: post) = some (pre.length, c) := by
  induction pre with
  | nil => simp [findById, hc]
  | cons x xs ih =>
    have hx : x._id ≠ id := hpre x (List.mem_cons_self _ _)
    have h2 := ih (fun y hy => hpre y (List.mem_cons_of_mem _ hy))
    simp [findById, hx, h2]

/-- Overwriting the document that follows `pre` in a collection. -/
theorem set_append_cons (pre post : List Campaign) (c c2 : Campaign) :
    (pre ++ c :: post).set pre.length c2 = pre ++ c2 :: post := by
  induction pre with
  | nil => rfl
  | cons x xs ih => simp [List.set, ih]

/-- The handler on a receipt naming the existing log `l`, the query completing: the response
carries the updated log, which replaces `l` in the collection, and nothing else changes. -/
theorem deliveryReceipt_of_known (env : ReceiptEnv) (req : ReceiptRequest) (db : Database)
    (logId : Nat) (status : String) (pre post : List CommunicationLog) (l : CommunicationLog)
    (hid : req.logId = some logId) (hstatus : req.status = some status) (hne : status ≠ "")
    (hquery : env.updateError = none)
    (hlogs : db.logs = pre ++ l :: post) (hl : l._id = logId)
    (hpre : ∀ x ∈ pre, x._id ≠ logId) :
    deliveryReceipt env req db =
      ({ status := 200,
         body := .processed true "Delivery receipt processed"
           { l with
             status := status
             deliveryTimestamp := some env.now
             errorMessage := match req.errorMessage with
               | some v => v
               | none => l.errorMessage } },
       { logs :=
           pre ++
             { l with
               status := status
               deliveryTimestamp := some env.now
               errorMessage := match req.errorMessage with
                 | some v => v
                 | none => l.errorMessage } :: post,
         campaigns := db.campaigns }) := by
  have htruthy : (status != "") = true := by simpa using hne
  simp [deliveryReceipt, hid, hstatus, truthy, htruthy, hquery, hlogs,
    findByIdAndUpdate_known _ _ _ _ _ hl hpre]

/-- The counter the callback increments for a SENT receipt. -/
theorem countReceipt_sent (c : Campaign) :
    (countReceipt "SENT" c).stats.sent = c.stats.sent + 1 ∧
    (countReceipt "SENT" c).stats.failed = c.stats.failed ∧
    (countReceipt "SENT" c).stats.audienceSize = c.stats.audienceSize := by
  simp [countReceipt]

/-- The counter the callback increments for a receipt whose status is not SENT. -/
theorem countReceipt_not_sent (status : String) (c : Campaign) (h : status ≠ "SENT") :
    (countReceipt status c).stats.failed = c.stats.failed + 1 ∧
    (countReceipt status c).stats.sent = c.stats.sent ∧
    (countReceipt status c).stats.audienceSize = c.stats.audienceSize := by
  simp [countReceipt, h]

/-- The delayed callback of `/send`, every call resolving, for an existing campaign `c` and an
existing log `l`: the campaign's counter matching the status is incremented once by the
callback itself, and the receipt it posts sets the status of the log; nothing is logged. -/
theorem receiptCallback_counts_once (env : CallbackEnv) (p : PendingReceipt) (db : Database)
    (cpre cpost : List Campaign) (c : Campaign) (pre post : List CommunicationLog)
    (l : CommunicationLog)
    (hfind : env.findCampaign = none) (hsave : env.saveCampaign = none)
    (hpost : env.postError = none) (hquery : env.receipt.updateError = none)
    (hne : p.status ≠ "")
    (hcampaigns : db.campaigns = cpre ++ c :: cpost) (hc : c._id = p.campaignId)
    (hcpre : ∀ x ∈ cpre, x._id ≠ p.campaignId)
    (hlogs : db.logs = pre ++ l :: post) (hl : l._id = p.logId)
    (hpre : ∀ x ∈ pre, x._id ≠ p.logId) :
    receiptCallback env p db =
      ({ logs :=
           pre ++
             { l with
               status := p.status
               deliveryTimestamp := some env.receipt.now
               errorMessage := p.errorMessage } :: post,
         campaigns := cpre ++ countReceipt p.status c :: cpost }, none) := by
  have h := deliveryReceipt_of_known env.receipt
    { logId := some p.logId, status := some p.status, errorMessage := some p.errorMessage }
    { logs := db.logs, campaigns := cpre ++ countReceipt p.status c :: cpost }
    p.logId p.status pre post l rfl rfl hne hquery hlogs hl hpre
  simp only [receiptCallback, hfind, hsave, hpost, hcampaigns,
    findById_known _ _ _ _ hc hcpre, set_append_cons, h]
  simp

/-- The queue-and-deliver path as a whole, every call resolving: `POST /send` stores a log in
its terminal status and schedules a receipt; the delayed callback then increments, once, the
counter of the campaign that matches that status (`sent` when the draw succeeded, `failed`
otherwise), and the receipt it posts leaves the status of the log as it is. -/
theorem send_then_receiptCallback (senv : SendEnv) (cenv : CallbackEnv) (req : SendRequest)
    (db : Database) (campaignId customerId : Nat) (message : String)
    (cpre cpost : List Campaign) (c : Campaign)
    (hcampaign : req.campaignId = some campaignId) (hcustomer : req.customerId = some customerId)
    (hmessage : req.message = some message) (hne : message ≠ "")
    (hsaveLog : senv.saveLog = none)
    (hfresh : ∀ x ∈ db.logs, x._id ≠ senv.logId)
    (hfind : cenv.findCampaign = none) (hsave : cenv.saveCampaign = none)
    (hpost : cenv.postError = none) (hquery : cenv.receipt.updateError = none)
    (hcampaigns : db.campaigns = cpre ++ c :: cpost) (hc : c._id = campaignId)
    (hcpre : ∀ x ∈ cpre, x._id ≠ campaignId) :
    ∃ p db1,
      send senv req db
        = ({ status := 200, body := .queued true "Message queued for delivery" senv.logId },
           db1, some p) ∧
      p.status = (if senv.isSuccess then "SENT" else "FAILED") ∧
      (receiptCallback cenv p db1).2 = none ∧
      (receiptCallback cenv p db1).1.campaigns = cpre ++ countReceipt p.status c :: cpost ∧
      (receiptCallback cenv p db1).1.logs.map (fun l => (l._id, l.campaignId, l.status))
        = db.logs.map (fun l => (l._id, l.campaignId, l.status))
            ++ [(senv.logId, campaignId, p.status)] := by
  have htruthy : (message != "") = true := by simpa using hne
  have hstatus : (if senv.isSuccess then "SENT" else "FAILED") ≠ "" := by
    split <;> decide
  refine ⟨{ campaignId := campaignId, logId := senv.logId,
            status := if senv.isSuccess then "SENT" else "FAILED",
            errorMessage := if senv.isSuccess then none else some "Simulated delivery failure" },
          { logs := db.logs ++
              [{ _id := senv.logId, campaignId := campaignId, customerId := customerId,
                 message := message, status := if senv.isSuccess then "SENT" else "FAILED",
                 deliveryReceipt := some
                   { status := if senv.isSuccess then "SENT" else "FAILED",
                     timestamp := senv.now, messageId := none,
                     errorMessage :=
                       if senv.isSuccess then none else some "Simulated delivery failure" },
                 deliveryTimestamp := none, errorMessage := none }],
            campaigns := db.campaigns }, ?_, rfl, ?_⟩
  · simp only [send, hcampaign, hcustomer, hmessage, truthy, htruthy, hsaveLog]
  · have key : ∀ (log : CommunicationLog) (p : PendingReceipt), log._id = p.logId →
        p.campaignId = campaignId → p.logId = senv.logId → p.status ≠ "" →
        receiptCallback cenv p { logs := db.logs ++ [log], campaigns := db.campaigns } =
          ({ logs :=
               db.logs ++
                 { log with
                   status := p.status
                   deliveryTimestamp := some cenv.receipt.now
                   errorMessage := p.errorMessage } :: [],
             campaigns := cpre ++ countReceipt p.status c :: cpost }, none) := by
      intro log p h1 h2 h3 h4
      exact receiptCallback_counts_once cenv p
        { logs := db.logs ++ [log], campaigns := db.campaigns } cpre cpost c db.logs [] log
        hfind hsave hpost hquery h4 hcampaigns (hc.trans h2.symm)
        (fun x hx => by rw [h2]; exact hcpre x hx) rfl h1
        (fun x hx => by rw [h3]; exact hfresh x hx)
    rw [key _ _ rfl rfl rfl hstatus]
    simp

/-- The persisted history of a run, state by state, when persistence succeeds and the segment
resolves to `customers`: status, audience size and number of processed recipients of the two
states saved before the loop, of the state saved after each recipient, and of the final
state. -/
theorem processMessages_saved_trace (env : Env) (this : Campaign)
    (logs : List CommunicationLog) (customers : List Customer) (hok : env.persistenceOk)
    (hseg : env.findSegment = .ok (some customers)) :
    (processMessages env this logs).saved.map
        (fun x => (x.status, x.stats.audienceSize, processed x))
      = [(CampaignStatus.running, this.stats.audienceSize, processed this),
         (CampaignStatus.running, customers.length, processed this)]
        ++ (List.range' 1 customers.length).map
            (fun j => (CampaignStatus.running, customers.length, j))
        ++ [(CampaignStatus.completed, customers.length,
              if customers = [] then processed this else customers.length)] := by
  obtain ⟨-, hstat, hsize, hcons, hnil⟩ := processMessages_summary env this logs customers hok hseg
  obtain ⟨added, hsaved, hadded, hmap⟩ := processMessages_saved env this logs customers hok hseg
  have hadd : added.map (fun x => (x.status, x.stats.audienceSize, processed x))
      = (List.range' 1 customers.length).map
          (fun j => (CampaignStatus.running, customers.length, j)) := by
    rw [← hmap, List.map_map]
    apply List.map_congr_left
    intro x hx
    obtain ⟨a, b, t, rfl⟩ := hadded x hx
    rfl
  have hfinal : processed (processMessages env this logs).campaign
      = if customers = [] then processed this else customers.length := by
    by_cases hcs : customers = []
    · simp only [hcs, if_true, processed]
      rw [(hnil hcs).1, (hnil hcs).2]
    · simp only [hcs, if_false]
      exact (hcons hcs).2
  rw [hsaved, List.map_append, List.map_append, hadd]
  simp only [loopEntry, List.map_cons, List.map_nil, hstat, hsize, hfinal]
  rfl

/-- Reading the state with number `i` off the trace of a run that starts with no processed
recipient: it is the first state, the second, the state saved after recipient `i - 1`, or the
final state. -/
theorem trace_state_at (n a0 i : ℕ) (v : CampaignStatus × ℕ × ℕ) (pf : ℕ)
    (h : ([(CampaignStatus.running, a0, 0), (CampaignStatus.running, n, 0)]
          ++ (List.range' 1 n).map (fun j => (CampaignStatus.running, n, j))
          ++ [(CampaignStatus.completed, n, pf)])[i]? = some v) :
    (i = 0 ∧ v = (CampaignStatus.running, a0, 0)) ∨
    (i = 1 ∧ v = (CampaignStatus.running, n, 0)) ∨
    (2 ≤ i ∧ i < n + 2 ∧ v = (CampaignStatus.running, n, i - 1)) ∨
    (i = n + 2 ∧ v = (CampaignStatus.completed, n, pf)) := by
  match i with
  | 0 =>
    simp only [List.cons_append, List.getElem?_cons_zero, Option.some.injEq] at h
    exact Or.inl ⟨rfl, h.symm⟩
  | 1 =>
    simp only [List.cons_append, List.getElem?_cons_succ, List.getElem?_cons_zero,
      Option.some.injEq] at h
    exact Or.inr (Or.inl ⟨rfl, h.symm⟩)
  | j + 2 =>
    simp only [List.cons_append, List.nil_append, List.getElem?_cons_succ] at h
    by_cases hj : j < n
    · rw [List.getElem?_append_left (by simpa using hj), List.getElem?_map,
        List.getElem?_range' 1 1 hj] at h
      simp only [Option.map_some', Option.some.injEq] at h
      refine Or.inr (Or.inr (Or.inl ⟨by omega, by omega, ?_⟩))
      rw [← h]
      simp only [Prod.mk.injEq, true_and]
      omega
    · rw [List.getElem?_append_right (by simpa using Nat.le_of_not_lt hj)] at h
      simp only [List.length_map, List.length_range'] at h
      have hjn : j - n = 0 := by
        by_contra hne
        obtain ⟨m, hm⟩ := Nat.exists_eq_succ_of_ne_zero hne
        rw [hm] at h
        simp at h
      rw [hjn] at h
      simp only [List.getElem?_cons_zero, Option.some.injEq] at h
      exact Or.inr (Or.inr (Or.inr ⟨by omega, h.symm⟩))

/-- Progress of the final state, whatever counters the campaign carried before the run: when
persistence succeeds and the segment is found, the run ends `completed` with progress 100 for
a non-empty audience and 0 for an empty one. -/
theorem getProgress_final_state (env : Env) (this : Campaign) (logs : List CommunicationLog)
    (customers : List Customer) (hok : env.persistenceOk)
    (hseg : env.findSegment = .ok (some customers)) :
    (processMessages env this logs).campaign.status = .completed ∧
    (getProgress (processMessages env this logs).campaign).1
      = if customers = [] then 0 else 100 := by
  obtain ⟨-, hstat, hsize, hcons, -⟩ := processMessages_summary env this logs customers hok hseg
  refine ⟨hstat, ?_⟩
  rw [getProgress_eq, hsize]
  by_cases hcs : customers = []
  · have h0 : customers.length = 0 := by rw [hcs]; rfl
    simp [hcs, h0]
  · have hlen : 0 < customers.length := List.length_pos.mpr hcs
    rw [(hcons hcs).2, if_pos hlen, if_neg hcs]
    exact percentage_full _ hlen

/-! ## Claims -/

/-- C1: evaluation at the failing input.  A campaign that finished an earlier run with
counters (3, 2, 1) is run again while its segment resolves to no customer, every effect
succeeding: the run resolves with status `completed`, the audience size is reset to 0, and
`sent` and `failed` keep the values 2 and 1 of the earlier run, so that
`sent + failed = 3` while `audienceSize = 0`. -/
theorem processMessages_empty_audience_keeps_counters :
    (processMessages (scriptedEnv [] (fun _ => true)) (finishedCampaign 3 2 1) []).result
        = .ok () ∧
    (processMessages (scriptedEnv [] (fun _ => true)) (finishedCampaign 3 2 1) []).campaign.status
        = .completed ∧
    counters (processMessages (scriptedEnv [] (fun _ => true)) (finishedCampaign 3 2 1)
        []).campaign = (0, 2, 1) := by
  decide

/-- C2: evaluation at the failing input.  The collection holds a PENDING log of campaign 1
for customer 10 left by an interrupted attempt; the campaign is run for that customer, the
vendor fails and every persistence call resolves.  The run completes with `sent = 0` and
`failed = 1`, the failure update is written to the old log (`_id` 7), and the log created by
the run (`_id` 100) stays PENDING without any error message. -/
theorem processMessages_failure_marks_older_pending_log :
    (processMessages (scriptedEnv [ann] (fun _ => false)) draftCampaign [stuckLog]).result
        = .ok () ∧
    (processMessages (scriptedEnv [ann] (fun _ => false)) draftCampaign
        [stuckLog]).campaign.status = .completed ∧
    counters (processMessages (scriptedEnv [ann] (fun _ => false)) draftCampaign
        [stuckLog]).campaign = (1, 0, 1) ∧
    (processMessages (scriptedEnv [ann] (fun _ => false)) draftCampaign [stuckLog]).logs.map
        (fun l => (l._id, l.customerId, l.status, l.deliveryReceipt.map (fun r => r.errorMessage)))
      = [(7, 10, "FAILED", some (some "Simulated message delivery failure")),
         (100, 10, "PENDING", none)] := by
  decide

/-- C3 (counterexample): when the first `log.save()` of a recipient rejects, the inner `catch`
finds no PENDING log, counts the recipient as failed and goes on; the run completes with
`failed = 1` and no communication log for the recipient it processed. -/
theorem processMessages_completes_without_log :
    (processMessages (logStoreDownEnv [ann]) draftCampaign []).result = .ok () ∧
    (processMessages (logStoreDownEnv [ann]) draftCampaign []).campaign.status = .completed ∧
    counters (processMessages (logStoreDownEnv [ann]) draftCampaign []).campaign = (1, 0, 1) ∧
    (processMessages (logStoreDownEnv [ann]) draftCampaign []).logs = [] := by
  decide

/-- C3 (amended): if the segment resolves to `customers`, the collection held no PENDING log of
this campaign for any of these customers before the run, and the run resolves, then the
campaign is `completed` and the collection is the former one followed by the logs the run
created: exactly one for each recipient whose PENDING log was stored (the `log.save()` of line
134 resolved), in the order of these recipients, each for this campaign and that customer,
each in status SENT or FAILED (so none is left PENDING); a recipient whose PENDING log was not
stored has no log. -/
theorem processMessages_one_terminal_log_per_recipient (env : Env) (this : Campaign)
    (logs : List CommunicationLog) (customers : List Customer)
    (hseg : env.findSegment = .ok (some customers))
    (hnostuck : ∀ x ∈ logs, ∀ c ∈ customers,
      ¬ (x.campaignId = this._id ∧ x.customerId = c._id ∧ x.status = "PENDING"))
    (hdone : (processMessages env this logs).result = .ok ()) :
    (processMessages env this logs).campaign.status = .completed ∧
    ∃ created, (processMessages env this logs).logs = logs ++ created ∧
      created.map (fun l => l.customerId)
        = (loggedCustomers env.recipient 0 customers).map (fun c => c._id) ∧
      ∀ l ∈ created, l.campaignId = this._id ∧ (l.status = "SENT" ∨ l.status = "FAILED") := by
  obtain ⟨s4, hloop, hout⟩ := processMessages_ok env this logs customers hseg hdone
  have hnone : ∀ x ∈ logs, ∀ c ∈ customers, pendingFilter this._id c._id x = false := by
    intro x hx c hc
    have := hnostuck x hx c hc
    simp only [pendingFilter, Bool.and_eq_false_imp, Bool.and_eq_true, beq_iff_eq, and_imp]
    intro h1 h2
    simpa using fun h3 => this ⟨h1, h2, h3⟩
  obtain ⟨_, created, hlogs, hmap, hall⟩ :=
    processBatch_logs env.recipient customers 0 (loopEntry this logs customers.length) s4
      hnone hloop
  rw [hout]
  exact ⟨rfl, created, hlogs, hmap, hall⟩

/-- C3 (witness): the amended claim at an audience of two, the save of the PENDING log
rejecting for the first customer and resolving for the second. -/
theorem processMessages_one_terminal_log_per_recipient_witness :
    (processMessages (firstLogSaveDownEnv [ann, bob]) draftCampaign []).campaign.status
      = .completed ∧
    ∃ created,
      (processMessages (firstLogSaveDownEnv [ann, bob]) draftCampaign []).logs = [] ++ created ∧
      created.map (fun l => l.customerId)
        = (loggedCustomers (firstLogSaveDownEnv [ann, bob]).recipient 0 [ann, bob]).map
            (fun c => c._id) ∧
      ∀ l ∈ created, l.campaignId = draftCampaign._id ∧
        (l.status = "SENT" ∨ l.status = "FAILED") :=
  processMessages_one_terminal_log_per_recipient
    (firstLogSaveDownEnv [ann, bob]) draftCampaign [] [ann, bob] rfl (by simp) (by decide)

/-- C4: evaluation at the failing input.  A campaign that finished an earlier run over two
customers, both sent, is run again after its segment shrank to one customer, every effect
succeeding.  The counters of the successive persisted states are listed: the second state
(audience size saved, line 112) has `sent + failed = 2` and `audienceSize = 1`. -/
theorem processMessages_rerun_counters_exceed_audience :
    (processMessages (scriptedEnv [ann] (fun _ => true)) (finishedCampaign 2 2 0) []).result
      = .ok () ∧
    (processMessages (scriptedEnv [ann] (fun _ => true)) (finishedCampaign 2 2 0) []).saved.map
        counters = [(2, 2, 0), (1, 2, 0), (1, 1, 0), (1, 1, 0)] := by
  decide

/-- C5 (counterexample): the segment lookup yields no segment and the save of the `failed`
status rejects with the message `store down`: the promise rejects with `store down`, not with
`Segment not found`, and the only persisted state has status `running`. -/
theorem processMessages_segment_missing_save_rejects :
    (processMessages segmentMissingSaveDownEnv draftCampaign []).result = .error "store down" ∧
    (processMessages segmentMissingSaveDownEnv draftCampaign []).saved.map (fun c => c.status)
      = [.running] := by
  decide

/-- C5 (amended): if the first save succeeds and the segment lookup yields no segment, the
document ends with status `failed` and is otherwise as before the run (so `audienceSize`,
`sent` and `failed` are unchanged), the log collection is unchanged, and the promise rejects:
with `Segment not found` when the save of the `failed` status succeeds, that status being
then persisted, and with the error of that save when it rejects, nothing more being then
persisted. -/
theorem processMessages_segment_missing (env : Env) (this : Campaign)
    (logs : List CommunicationLog) (hsave : env.saveRunning = none)
    (hseg : env.findSegment = .ok none) :
    (processMessages env this logs).campaign = { this with status := .failed } ∧
    (processMessages env this logs).logs = logs ∧
    (processMessages env this logs).result
      = .error (match env.saveFailed with
          | none => "Segment not found"
          | some err => err) ∧
    (processMessages env this logs).saved
      = { this with status := .running } ::
          (match env.saveFailed with
            | none => [{ this with status := .failed }]
            | some _ => []) := by
  rcases h : env.saveFailed with _ | err <;>
  simp [processMessages, onCampaignError, hsave, hseg, h]

/-- C5 (witness): the amended claim for a draft campaign, every save succeeding. -/
theorem processMessages_segment_missing_witness :
    (processMessages segmentMissingEnv draftCampaign []).campaign
      = { draftCampaign with status := .failed } ∧
    (processMessages segmentMissingEnv draftCampaign []).logs = [] ∧
    (processMessages segmentMissingEnv draftCampaign []).result
      = .error (match segmentMissingEnv.saveFailed with
          | none => "Segment not found"
          | some err => err) ∧
    (processMessages segmentMissingEnv draftCampaign []).saved
      = { draftCampaign with status := .running } ::
          (match segmentMissingEnv.saveFailed with
            | none => [{ draftCampaign with status := .failed }]
            | some _ => []) :=
  processMessages_segment_missing segmentMissingEnv draftCampaign [] rfl rfl

/-- C6: evaluation at the failing input.  A template that names the customer twice is
rendered with only the first `{{customerName}}` replaced; the second stays in the message. -/
theorem renderMessage_replaces_first_occurrence_only :
    renderMessage "Dear {{customerName}}, {{message}} Bye {{customerName}}" "Ann" "hello"
      = "Dear Ann, hello Bye {{customerName}}" := by
  decide

/-- C7 (counterexample): for stats `{audienceSize: 25, sent: 7, failed: 0}` the claimed value
`100 * (sent + failed) / audienceSize` is 28, while `getProgress` returns the double
`7881299347898369 / 2 ^ 48`, printed `28.000000000000004`: the quotient `7 / 25` is rounded
before it is multiplied by 100. -/
theorem getProgress_rounds_quotient_first :
    counters (finishedCampaign 25 7 0) = (25, 7, 0) ∧
    (100 * ((7 + 0 : ℕ) : ℚ) / ((25 : ℕ) : ℚ) = 28) ∧
    (getProgress (finishedCampaign 25 7 0)).1 = 7881299347898369 / 281474976710656 ∧
    (getProgress (finishedCampaign 25 7 0)).1 ≠ 28 := by
  have h : (getProgress (finishedCampaign 25 7 0)).1 = 7881299347898369 / 281474976710656 := by
    rw [getProgress_eq]
    simp only [finishedCampaign, processed]
    norm_num
    exact percentage_seven_of_twenty_five
  refine ⟨rfl, by norm_num, h, ?_⟩
  rw [h]
  norm_num

/-- C7 (amended): for every campaign, `getProgress` returns 0 when `audienceSize` is 0 and,
when `audienceSize > 0`, the double-precision value of `(sent + failed) / audienceSize * 100`
(the quotient rounded to the nearest double, the product rounded again), which differs from
`100 * (sent + failed) / audienceSize` by at most the fraction `2 ^ -51` of that number; and
the document after the call is the document before it. -/
theorem getProgress_spec (this : Campaign) :
    (if this.stats.audienceSize = 0 then (getProgress this).1 = 0
     else
      (getProgress this).1 = percentage (this.stats.sent + this.stats.failed)
          this.stats.audienceSize ∧
      |(getProgress this).1
          - 100 * ((this.stats.sent + this.stats.failed : ℕ) : ℚ) / (this.stats.audienceSize : ℚ)|
        ≤ 100 * ((this.stats.sent + this.stats.failed : ℕ) : ℚ) / (this.stats.audienceSize : ℚ)
            / 2 ^ (51 : ℕ)) ∧
    (getProgress this).2 = this := by
  refine ⟨?_, rfl⟩
  by_cases h : this.stats.audienceSize = 0
  · simp [getProgress, h]
  · have hpos : 0 < this.stats.audienceSize := Nat.pos_of_ne_zero h
    have hval : (getProgress this).1
        = percentage (this.stats.sent + this.stats.failed) this.stats.audienceSize := by
      simp [getProgress, hpos]
    simp only [h, if_false]
    refine ⟨hval, ?_⟩
    rw [hval]
    exact percentage_error _ _ hpos

/-- C8: evaluation at the failing input.  A campaign that finished an earlier run over two
customers, both sent, is run again over the same two customers, every effect succeeding.
The values of `getProgress` over the successive persisted states are 100, 100, 50, 100, 100:
the state persisted after the first recipient has a smaller progress than the one before. -/
theorem processMessages_rerun_progress_drops :
    (processMessages (scriptedEnv [ann, bob] (fun _ => true)) (finishedCampaign 2 2 0) []).result
      = .ok () ∧
    (processMessages (scriptedEnv [ann, bob] (fun _ => true)) (finishedCampaign 2 2 0)
        []).saved.map (fun c => (getProgress c).1) = [100, 100, 50, 100, 100] := by
  refine ⟨by decide, ?_⟩
  have h : (processMessages (scriptedEnv [ann, bob] (fun _ => true)) (finishedCampaign 2 2 0)
      []).saved.map counters = [(2, 2, 0), (2, 2, 0), (2, 1, 0), (2, 2, 0), (2, 2, 0)] := by
    decide
  have h22 : percentage 2 2 = 100 := percentage_full 2 (by norm_num)
  have h12 : percentage 1 2 = 50 := percentage_one_half
  rw [getProgress_counters, ← List.map_map, h]
  simp [h22, h12]

/-- C9 (counterexample): a draft campaign whose segment resolves to no customer ends
`completed` with progress 0; and in a run over one customer the state persisted after that
recipient has progress 100 while its status is `running`. -/
theorem getProgress_hundred_not_iff_completed :
    ((processMessages (scriptedEnv [] (fun _ => true)) draftCampaign []).campaign.status
        = .completed ∧
      (getProgress (processMessages (scriptedEnv [] (fun _ => true)) draftCampaign []).campaign).1
        = 0) ∧
    (processMessages (scriptedEnv [ann] (fun _ => true)) draftCampaign []).saved.map
        (fun c => (c.status, (getProgress c).1))
      = [(.running, 0), (.running, 0), (.running, 100), (.completed, 100)] := by
  refine ⟨⟨by decide, ?_⟩, ?_⟩
  · have h : counters (processMessages (scriptedEnv [] (fun _ => true)) draftCampaign
        []).campaign = (0, 0, 0) := by decide
    have := congrFun getProgress_counters
      (processMessages (scriptedEnv [] (fun _ => true)) draftCampaign []).campaign
    simp only [Function.comp, h] at this
    simpa using this
  · have h : (processMessages (scriptedEnv [ann] (fun _ => true)) draftCampaign []).saved.map
        (fun c => (c.status, counters c))
        = [(.running, (0, 0, 0)), (.running, (1, 0, 0)), (.running, (1, 1, 0)),
           (.completed, (1, 1, 0))] := by
      decide
    have hf : (fun c : Campaign => (c.status, (getProgress c).1))
        = (fun p : CampaignStatus × ℕ × ℕ × ℕ =>
            (p.1, if p.2.1 > 0 then percentage (p.2.2.1 + p.2.2.2) p.2.1 else 0))
          ∘ (fun c => (c.status, counters c)) := by
      funext c
      simp [getProgress, counters]
    have h11 : percentage 1 1 = 100 := percentage_full 1 (by norm_num)
    have h01 : percentage 0 1 = 0 := percentage_zero 1
    rw [hf, ← List.map_map, h]
    simp [h11, h01]

/-- C9 (amended): for a run that starts with `sent = failed = 0`, with persistence succeeding
and the segment resolving to `customers` (fewer than `2 ^ 32` of them, as every JavaScript
array), the run resolves with status `completed`; the `customers.length + 3` states it persists are
numbered from 0, the state saved after the last recipient having number
`customers.length + 1` and the final state number `customers.length + 2`; only the final state has status `completed`; and
`getProgress` is 100 exactly in the final state and in the state saved after the last
recipient when the audience is non-empty, and in no state when it is empty.  So progress is
100 if and only if the status is `completed`, except in the state saved after the last
recipient of a non-empty audience (progress 100, status `running`) and in the final state of
an empty audience (status `completed`, progress not 100). -/
theorem getProgress_hundred_iff (env : Env) (this : Campaign) (logs : List CommunicationLog)
    (customers : List Customer) (hok : env.persistenceOk)
    (hseg : env.findSegment = .ok (some customers))
    (hsent : this.stats.sent = 0) (hfailed : this.stats.failed = 0)
    (hlen : customers.length < 2 ^ 32) :
    (processMessages env this logs).result = .ok () ∧
    (processMessages env this logs).campaign.status = .completed ∧
    (processMessages env this logs).saved.length = customers.length + 3 ∧
    (processMessages env this logs).saved[customers.length + 2]?
      = some (processMessages env this logs).campaign ∧
    ∀ (i : ℕ) (x : Campaign), (processMessages env this logs).saved[i]? = some x →
      (x.status = .completed ↔ i = customers.length + 2) ∧
      ((getProgress x).1 = 100 ↔
        (customers ≠ [] ∧ (i = customers.length + 1 ∨ i = customers.length + 2))) := by
  obtain ⟨hres, hstat, -, -, -⟩ := processMessages_summary env this logs customers hok hseg
  obtain ⟨added, hsaved, -, hmap⟩ := processMessages_saved env this logs customers hok hseg
  have htrace := processMessages_saved_trace env this logs customers hok hseg
  have hp0 : processed this = 0 := by simp [processed, hsent, hfailed]
  have haddlen : added.length = customers.length := by
    have := congrArg List.length hmap
    simpa using this
  refine ⟨hres, hstat, ?_, ?_, ?_⟩
  · rw [hsaved]
    simp [loopEntry, haddlen]
  · rw [hsaved, List.getElem?_append_right (by simp [loopEntry, haddlen])]
    simp [loopEntry, haddlen]
  · intro i x hx
    have hfx : ((processMessages env this logs).saved.map
        (fun x => (x.status, x.stats.audienceSize, processed x)))[i]?
          = some (x.status, x.stats.audienceSize, processed x) := by
      rw [List.getElem?_map, hx]; rfl
    rw [htrace, hp0] at hfx
    have hcases := trace_state_at customers.length this.stats.audienceSize i _ _ hfx
    have hcs : customers ≠ [] ↔ 0 < customers.length := List.length_pos.symm
    rcases hcases with ⟨hi, hv⟩ | ⟨hi, hv⟩ | ⟨hi2, hin, hv⟩ | ⟨hi, hv⟩
    · simp only [Prod.mk.injEq] at hv
      obtain ⟨hs, -, hp⟩ := hv
      rw [getProgress_eq, hp, hs]
      constructor
      · constructor
        · intro h; cases h
        · omega
      · constructor
        · intro h
          exfalso
          split at h
          · rw [percentage_zero] at h; norm_num at h
          · norm_num at h
        · rintro ⟨-, h | h⟩ <;> omega
    · simp only [Prod.mk.injEq] at hv
      obtain ⟨hs, -, hp⟩ := hv
      rw [getProgress_eq, hp, hs, hcs]
      constructor
      · constructor
        · intro h; cases h
        · omega
      · constructor
        · intro h
          exfalso
          split at h
          · rw [percentage_zero] at h; norm_num at h
          · norm_num at h
        · rintro ⟨h0, h | h⟩ <;> omega
    · simp only [Prod.mk.injEq] at hv
      obtain ⟨hs, hsz, hp⟩ := hv
      have hpos : 0 < customers.length := by omega
      have hc51 : i - 1 < 2 ^ 51 := by
        have h32 : (2 : ℕ) ^ 32 < 2 ^ 51 := by norm_num
        omega
      rw [getProgress_eq, hp, hs, hsz, hcs, if_pos hpos,
        percentage_eq_hundred_iff _ _ hpos hc51]
      constructor
      · constructor
        · intro h; cases h
        · omega
      · constructor
        · intro h; exact ⟨hpos, Or.inl (by omega)⟩
        · rintro ⟨-, h | h⟩ <;> omega
    · simp only [Prod.mk.injEq] at hv
      obtain ⟨hs, hsz, hp⟩ := hv
      rw [getProgress_eq, hp, hs, hsz, hcs]
      refine ⟨⟨fun _ => hi, fun _ => rfl⟩, ?_⟩
      by_cases hn : customers = []
      · have h0 : customers.length = 0 := by rw [hn]; rfl
        simp [hn, h0]
      · have hpos : 0 < customers.length := List.length_pos.mpr hn
        simp only [hn, if_false, if_pos hpos, percentage_full _ hpos, true_iff]
        exact ⟨hpos, Or.inr hi⟩

/-- C9 (witness): the amended claim at an audience of two, the vendor failing for the second
customer. -/
theorem getProgress_hundred_iff_witness :
    (processMessages (scriptedEnv [ann, bob] (fun k => k == 0)) draftCampaign []).result = .ok () ∧
    (processMessages (scriptedEnv [ann, bob] (fun k => k == 0)) draftCampaign []).campaign.status
      = .completed ∧
    (processMessages (scriptedEnv [ann, bob] (fun k => k == 0)) draftCampaign []).saved.length
      = [ann, bob].length + 3 ∧
    (processMessages (scriptedEnv [ann, bob] (fun k => k == 0)) draftCampaign []).saved[
        [ann, bob].length + 2]?
      = some (processMessages (scriptedEnv [ann, bob] (fun k => k == 0)) draftCampaign
          []).campaign ∧
    ∀ (i : ℕ) (x : Campaign),
      (processMessages (scriptedEnv [ann, bob] (fun k => k == 0)) draftCampaign []).saved[i]?
        = some x →
      (x.status = .completed ↔ i = [ann, bob].length + 2) ∧
      ((getProgress x).1 = 100 ↔
        ([ann, bob] ≠ [] ∧ (i = [ann, bob].length + 1 ∨ i = [ann, bob].length + 2))) :=
  getProgress_hundred_iff (scriptedEnv [ann, bob] (fun k => k == 0)) draftCampaign [] [ann, bob]
    (scriptedEnv_persistenceOk _ _) rfl rfl rfl (by decide)

/-- When no document has the identifier, `findByIdAndUpdate` returns `null` and the collection
as it was. -/
theorem findByIdAndUpdate_unknown (logId : Nat) (update : CommunicationLog → CommunicationLog)
    (logs : List CommunicationLog) (hno : ∀ l ∈ logs, l._id ≠ logId) :
    findByIdAndUpdate logId update logs = (none, logs) := by
  induction logs with
  | nil => rfl
  | cons l ls ih =>
    have h1 : l._id ≠ logId := hno l (List.mem_cons_self _ _)
    have h2 := ih (fun x hx => hno x (List.mem_cons_of_mem _ hx))
    simp [findByIdAndUpdate, h1, h2]

/-- C10 (counterexample): a receipt for identifier 3, in a database whose only log has
identifier 7, on which the update query rejects (as it does for an identifier that cannot be
cast), is answered with status 500 and `Error processing delivery receipt`, not with 404. -/
theorem deliveryReceipt_unknown_log_query_rejects :
    smallDatabase.logs.map (fun l => l._id) = [7] ∧
    unknownReceipt.logId = some 3 ∧
    (deliveryReceipt { now := 5, updateError := some "Cast to ObjectId failed" } unknownReceipt
        smallDatabase).1
      = { status := 500, body := .error "Error processing delivery receipt" } := by
  decide

/-- C10 (amended): given a `logId` and a non-empty `status`, if no communication log has that
identifier then the handler leaves every log and every campaign as it was, and it answers 404
with `Communication log not found` when the update query completes, and 500 with
`Error processing delivery receipt` when the query rejects. -/
theorem deliveryReceipt_unknown_log (env : ReceiptEnv) (req : ReceiptRequest) (db : Database)
    (logId : Nat) (status : String) (hid : req.logId = some logId)
    (hstatus : req.status = some status) (hne : status ≠ "")
    (hno : ∀ l ∈ db.logs, l._id ≠ logId) :
    (deliveryReceipt env req db).2 = db ∧
    (deliveryReceipt env req db).1 =
      (match env.updateError with
        | none => { status := 404, body := .error "Communication log not found" }
        | some _ => { status := 500, body := .error "Error processing delivery receipt" }) := by
  have htruthy : (status != "") = true := by simpa using hne
  rcases h : env.updateError with _ | err <;>
  simp [deliveryReceipt, hid, hstatus, truthy, htruthy, h, findByIdAndUpdate_unknown _ _ _ hno]

/-- C10 (witness): the amended claim for a receipt naming log 3 in a database whose only log
has identifier 7, the query completing. -/
theorem deliveryReceipt_unknown_log_witness :
    (deliveryReceipt { now := 5, updateError := none } unknownReceipt smallDatabase).2
      = smallDatabase ∧
    (deliveryReceipt { now := 5, updateError := none } unknownReceipt smallDatabase).1 =
      (match ({ now := 5, updateError := none } : ReceiptEnv).updateError with
        | none => { status := 404, body := .error "Communication log not found" }
        | some _ => { status := 500, body := .error "Error processing delivery receipt" }) :=
  deliveryReceipt_unknown_log { now := 5, updateError := none } unknownReceipt smallDatabase 3
    "SENT" rfl rfl (by decide) (by decide)

/-- C11 (counterexample): a receipt with status SENT for log 7, the PENDING log of campaign 1,
is answered 200 and sets the status of the log to SENT, and the counters of campaign 1 are
(0, 0, 0) after the request as before it: `stats.sent` is not incremented. -/
theorem deliveryReceipt_leaves_counters :
    smallDatabase.logs.map (fun l => (l._id, l.campaignId, l.status)) = [(7, 1, "PENDING")] ∧
    smallDatabase.campaigns.map (fun c => (c._id, counters c)) = [(1, (0, 0, 0))] ∧
    (deliveryReceipt { now := 5, updateError := none } knownReceipt smallDatabase).1.status
      = 200 ∧
    (deliveryReceipt { now := 5, updateError := none } knownReceipt smallDatabase).2.logs.map
        (fun l => (l._id, l.campaignId, l.status)) = [(7, 1, "SENT")] ∧
    (deliveryReceipt { now := 5, updateError := none } knownReceipt smallDatabase).2.campaigns.map
        (fun c => (c._id, counters c)) = [(1, (0, 0, 0))] := by
  decide

/-- C11 (amended): given the identifier of an existing log (`l`, the first document with that
identifier) and a non-empty status, when the update query completes the handler answers 200
with the updated log, sets the status of that log to the given status (writing also
`deliveryTimestamp` and, when one is given, `errorMessage`), leaves every other log as it was
and leaves the campaign collection unchanged: the handler changes neither `stats.sent` nor
`stats.failed`.  The increment is made by the delayed callback of `/send`, which, every call
resolving, adds one to the counter of the log's campaign `c` that matches the status
(`stats.sent` for SENT, `stats.failed` otherwise), leaves the other counter and every other
campaign as they were, and then posts the receipt that sets the status of the log. -/
theorem deliveryReceipt_existing_log (env : CallbackEnv) (req : ReceiptRequest)
    (p : PendingReceipt) (db : Database) (status : String)
    (pre post : List CommunicationLog) (l : CommunicationLog)
    (cpre cpost : List Campaign) (c : Campaign)
    (hid : req.logId = some l._id) (hstatus : req.status = some status) (hne : status ≠ "")
    (hquery : env.receipt.updateError = none)
    (hlogs : db.logs = pre ++ l :: post) (hpre : ∀ x ∈ pre, x._id ≠ l._id)
    (hplog : p.logId = l._id) (hpstatus : p.status = status)
    (hpcampaign : p.campaignId = l.campaignId)
    (hfind : env.findCampaign = none) (hsave : env.saveCampaign = none)
    (hpost : env.postError = none)
    (hcampaigns : db.campaigns = cpre ++ c :: cpost) (hc : c._id = l.campaignId)
    (hcpre : ∀ x ∈ cpre, x._id ≠ l.campaignId) :
    (deliveryReceipt env.receipt req db).1 =
      { status := 200,
        body := .processed true "Delivery receipt processed"
          { l with
            status := status
            deliveryTimestamp := some env.receipt.now
            errorMessage := match req.errorMessage with
              | some v => v
              | none => l.errorMessage } } ∧
    (deliveryReceipt env.receipt req db).2 =
      { logs :=
          pre ++
            { l with
              status := status
              deliveryTimestamp := some env.receipt.now
              errorMessage := match req.errorMessage with
                | some v => v
                | none => l.errorMessage } :: post,
        campaigns := db.campaigns } ∧
    receiptCallback env p db =
      ({ logs :=
           pre ++
             { l with
               status := status
               deliveryTimestamp := some env.receipt.now
               errorMessage := p.errorMessage } :: post,
         campaigns := cpre ++ countReceipt status c :: cpost }, none) ∧
    (countReceipt status c).stats.sent = c.stats.sent + (if status = "SENT" then 1 else 0) ∧
    (countReceipt status c).stats.failed = c.stats.failed + (if status = "SENT" then 0 else 1) := by
  refine ⟨?_, ?_, ?_, ?_, ?_⟩
  · rw [deliveryReceipt_of_known env.receipt req db l._id status pre post l hid hstatus hne hquery
      hlogs rfl hpre]
  · rw [deliveryReceipt_of_known env.receipt req db l._id status pre post l hid hstatus hne hquery
      hlogs rfl hpre]
  · rw [receiptCallback_counts_once env p db cpre cpost c pre post l hfind hsave hpost hquery
      (by rw [hpstatus]; exact hne) hcampaigns (hc.trans hpcampaign.symm)
      (fun x hx => by rw [hpcampaign]; exact hcpre x hx) hlogs hplog.symm
      (fun x hx => by rw [hplog]; exact hpre x hx), hpstatus]
  · by_cases h : status = "SENT" <;> simp [countReceipt, h]
  · by_cases h : status = "SENT" <;> simp [countReceipt, h]

/-- C11 (witness): the amended claim for a FAILED receipt naming log 7 of `smallDatabase`,
whose campaign is campaign 1. -/
theorem deliveryReceipt_existing_log_witness :
    (deliveryReceipt okCallbackEnv.receipt failedReceipt smallDatabase).1 =
      { status := 200,
        body := .processed true "Delivery receipt processed"
          { stuckLog with
            status := "FAILED"
            deliveryTimestamp := some okCallbackEnv.receipt.now
            errorMessage := match failedReceipt.errorMessage with
              | some v => v
              | none => stuckLog.errorMessage } } ∧
    (deliveryReceipt okCallbackEnv.receipt failedReceipt smallDatabase).2 =
      { logs :=
          [] ++
            { stuckLog with
              status := "FAILED"
              deliveryTimestamp := some okCallbackEnv.receipt.now
              errorMessage := match failedReceipt.errorMessage with
                | some v => v
                | none => stuckLog.errorMessage } :: [],
        campaigns := smallDatabase.campaigns } ∧
    receiptCallback okCallbackEnv
        { campaignId := 1, logId := 7, status := "FAILED", errorMessage := some "unreachable" }
        smallDatabase =
      ({ logs :=
           [] ++
             { stuckLog with
               status := "FAILED"
               deliveryTimestamp := some okCallbackEnv.receipt.now
               errorMessage :=
                 ({ campaignId := 1, logId := 7, status := "FAILED",
                    errorMessage := some "unreachable" } : PendingReceipt).errorMessage } :: [],
         campaigns := [] ++ countReceipt "FAILED" draftCampaign :: [] }, none) ∧
    (countReceipt "FAILED" draftCampaign).stats.sent
      = draftCampaign.stats.sent + (if "FAILED" = "SENT" then 1 else 0) ∧
    (countReceipt "FAILED" draftCampaign).stats.failed
      = draftCampaign.stats.failed + (if "FAILED" = "SENT" then 0 else 1) :=
  deliveryReceipt_existing_log okCallbackEnv failedReceipt
    { campaignId := 1, logId := 7, status := "FAILED", errorMessage := some "unreachable" }
    smallDatabase "FAILED" [] [] stuckLog [] [] draftCampaign rfl rfl (by decide) rfl rfl
    (by simp) rfl rfl rfl rfl rfl rfl rfl rfl (by simp)

end Dispatch
